import Mathlib

/-!
# TetWild: geogram adapter, box domain and constrained sampler

Shallow embedding of `src/src/tetwild/geogram/Utils.cpp`.

* Coordinates (`double`) are rationals: every statement below is about exact
  arithmetic.
* `Eigen::MatrixXi` entries are C `int`s, embedded as `Int` in the 32 bit
  range; the kernel stores `index_t` (unsigned 32 bit), embedded as `Nat`, and
  the two conversions wrap modulo `2 ^ 32`.
* Matrix and container sizes are natural numbers (no wrap of a row count).
* A failed `assert` / `eigen_assert` and a thrown `std::runtime_error` are the
  two kinds of `Failure`. Out-parameters passed by reference (`GEO::Mesh &M`)
  are threaded as state, and the state reached when a failure is raised is kept.
* geogram is an external library: its mesh containers and the point buffer of
  its sample set are modelled from the spec, and its sampling and relaxation
  algorithms are a parameter (`RelaxationService`) constrained only by the
  assumptions each statement names.
-/

namespace tetwild

/-! ## Failures and sequencing -/

/-- The two ways a call of this file can fail. -/
inductive Failure where
  /-- Thrown `std::runtime_error(msg)`. -/
  | structural (msg : String)
  /-- Failed `assert` or `eigen_assert` check. -/
  | assertion
  deriving DecidableEq, Repr

/-- Statement acting on a state `σ` passed by reference: the state it leaves
and the failure it raised, if any. -/
abbrev Stmt (σ : Type) := σ → Option Failure × σ

/-- Statement that cannot fail. -/
def Stmt.run {σ : Type} (f : σ → σ) : Stmt σ := fun s => (none, f s)

/-- Statement that raises `e` and leaves the state as it is. -/
def Stmt.fail {σ : Type} (e : Failure) : Stmt σ := fun s => (some e, s)

/-- Sequential composition `a; b`: `b` is not reached when `a` fails. -/
def Stmt.seq {σ : Type} (a b : Stmt σ) : Stmt σ := fun s =>
  match a s with
  | (none, s1) => b s1
  | (some e, s1) => (some e, s1)

/-- Loop `for (i : idx) body(i)`, left as soon as a body fails. -/
def Stmt.forEach {σ : Type} (body : Nat → Stmt σ) : List Nat → Stmt σ
  | [] => fun s => (none, s)
  | i :: rest => Stmt.seq (body i) (Stmt.forEach body rest)

/-! ## Eigen matrices -/

/-- Write of entry `j` of the `i`-th inner list, the storage update behind
`m(i, j) = v` and `set_vertex(c, lv, v)`. -/
def set2 {α : Type} (L : List (List α)) (i j : Nat) (v : α) : List (List α) :=
  L.set i ((L.getD i []).set j v)

/-- Dynamically sized dense matrix (`Eigen::MatrixXd`, `Eigen::MatrixXi`): the
column count and the rows in order. The row count is the number of rows
stored, so a `0 x 3` matrix is `⟨3, []⟩`. -/
structure Mat (α : Type) where
  cols : Nat
  data : List (List α)
  deriving DecidableEq, Repr

namespace Mat

variable {α : Type}

/-- Row count `m.rows()`. -/
def rows (m : Mat α) : Nat := m.data.length

/-- Every stored row has `m.cols()` entries. -/
def WF (m : Mat α) : Prop := ∀ r ∈ m.data, r.length = m.cols

instance (m : Mat α) : Decidable m.WF :=
  inferInstanceAs (Decidable (∀ r ∈ m.data, r.length = m.cols))

/-- Checked coefficient read `m(i, j)`; `none` is the failed index check. -/
def coeff (m : Mat α) (i j : Nat) : Option α :=
  match m.data[i]? with
  | some r => r[j]?
  | none => none

/-- Result of `m.resize(r, c)` followed by nothing else: an `r x c` matrix of
zeros (every entry is overwritten by the loop that follows each resize). -/
def resize [Zero α] (r c : Nat) : Mat α := ⟨c, List.replicate r (List.replicate c 0)⟩

/-- Coefficient write `m(i, j) = v`. -/
def setCoeff (m : Mat α) (i j : Nat) (v : α) : Mat α :=
  ⟨m.cols, set2 m.data i j v⟩

/-- Comma initialiser on a row, `m.row(i) << a, b, c`: writes columns 0, 1, 2. -/
def setRow3 (m : Mat α) (i : Nat) (a b c : α) : Mat α :=
  ((m.setCoeff i 0 a).setCoeff i 1 b).setCoeff i 2 c

/-- Entries are C `int`s. -/
def Int32 (m : Mat Int) : Prop := ∀ r ∈ m.data, ∀ x ∈ r, -2 ^ 31 ≤ x ∧ x < 2 ^ 31

instance (m : Mat Int) : Decidable m.Int32 :=
  inferInstanceAs (Decidable (∀ r ∈ m.data, ∀ x ∈ r, -2 ^ 31 ≤ x ∧ x < 2 ^ 31))

end Mat

/-- Fixed size row vector (`Eigen::RowVector3d`). -/
structure RowVector3d where
  c0 : ℚ
  c1 : ℚ
  c2 : ℚ
  deriving DecidableEq, Repr

/-- Coefficient `p(j)` of a row vector, `j < 3`. -/
def RowVector3d.coeff (p : RowVector3d) (j : Nat) : ℚ :=
  match j with
  | 0 => p.c0
  | 1 => p.c1
  | _ => p.c2

/-- Expression `p.array() + s` / `p.array() - s`: the scalar added to every
component. -/
def RowVector3d.addScalar (p : RowVector3d) (s : ℚ) : RowVector3d :=
  ⟨p.c0 + s, p.c1 + s, p.c2 + s⟩

/-! ## Geometry kernel -/

namespace GEO

/-- Kernel point (`GEO::vec3`). -/
structure vec3 where
  x : ℚ
  y : ℚ
  z : ℚ
  deriving DecidableEq, Repr

/-- Conversion `int -> index_t` at a call such as `set_vertex(c, lv, F(c, lv))`. -/
def index_of_int (x : Int) : Nat := (x % 2 ^ 32).toNat

/-- Conversion `index_t -> int` at an assignment such as
`F(c, lv) = M.facets.vertex(c, lv)`. -/
def int_of_index (v : Nat) : Int :=
  if v % 2 ^ 32 < 2 ^ 31 then ((v % 2 ^ 32 : Nat) : Int) else ((v % 2 ^ 32 : Nat) : Int) - 2 ^ 32

/-- Modelled from the spec: the kernel mesh `GEO::Mesh` (geogram is not part of
the sources). "An indexed mesh with separate vertex, facet, and cell
containers": the points in creation order, and for each facet and each cell the
vertex indices of its corners in creation order. Derived adjacency (the
"connect" step) has no effect on what the adapter reads back and is not
stored. -/
structure Mesh where
  vertices : List vec3
  facets : List (List Nat)
  cells : List (List Nat)
  deriving DecidableEq, Repr

namespace Mesh

/-- Modelled from the spec: `M.clear()`, the empty kernel mesh. -/
def clear (_M : Mesh) : Mesh := ⟨[], [], []⟩

/-- Modelled from the spec: `M.vertices.create_vertices(n)`, bulk creation of
`n` vertices (at the origin until assigned). -/
def create_vertices (M : Mesh) (n : Nat) : Mesh :=
  { M with vertices := M.vertices ++ List.replicate n ⟨0, 0, 0⟩ }

/-- Count `M.vertices.nb()`. -/
def vertices_nb (M : Mesh) : Nat := M.vertices.length

/-- Read `M.vertices.point(i)`. -/
def point (M : Mesh) (i : Nat) : vec3 := M.vertices.getD i ⟨0, 0, 0⟩

/-- Write `M.vertices.point(i)[k] = v` through the reference `p`. -/
def set_point_coord (M : Mesh) (i k : Nat) (v : ℚ) : Mesh :=
  let p := M.point i
  let q : vec3 :=
    match k with
    | 0 => { p with x := v }
    | 1 => { p with y := v }
    | _ => { p with z := v }
  { M with vertices := M.vertices.set i q }

/-- Modelled from the spec: homogeneous-arity facet creation,
`M.facets.create_triangles(n)`: `n` new facets of 3 corners each. -/
def create_triangles (M : Mesh) (n : Nat) : Mesh :=
  { M with facets := M.facets ++ List.replicate n (List.replicate 3 0) }

/-- Modelled from the spec: homogeneous-arity facet creation,
`M.facets.create_quads(n)`: `n` new facets of 4 corners each. -/
def create_quads (M : Mesh) (n : Nat) : Mesh :=
  { M with facets := M.facets ++ List.replicate n (List.replicate 4 0) }

/-- Count `M.facets.nb()`. -/
def facets_nb (M : Mesh) : Nat := M.facets.length

/-- Write `M.facets.set_vertex(c, lv, v)`. -/
def facets_set_vertex (M : Mesh) (c lv v : Nat) : Mesh :=
  { M with facets := set2 M.facets c lv v }

/-- Read `M.facets.vertex(c, lv)`. -/
def facets_vertex (M : Mesh) (c lv : Nat) : Nat := (M.facets.getD c []).getD lv 0

/-- Modelled from the spec: `M.facets.connect()`, the connectivity derivation;
it leaves vertices and corner indices as they are. -/
def facets_connect (M : Mesh) : Mesh := M

/-- Modelled from the spec: simplex-only validity query
`M.facets.are_simplices()`, "all facets ... are simplices (triangles)". -/
def facets_are_simplices (M : Mesh) : Bool := M.facets.all fun f => f.length == 3

/-- Modelled from the spec: homogeneous-arity cell creation,
`M.cells.create_tets(n)`: `n` new cells of 4 corners each. -/
def create_tets (M : Mesh) (n : Nat) : Mesh :=
  { M with cells := M.cells ++ List.replicate n (List.replicate 4 0) }

/-- Count `M.cells.nb()`. -/
def cells_nb (M : Mesh) : Nat := M.cells.length

/-- Write `M.cells.set_vertex(c, lv, v)`. -/
def cells_set_vertex (M : Mesh) (c lv v : Nat) : Mesh :=
  { M with cells := set2 M.cells c lv v }

/-- Read `M.cells.vertex(c, lv)`. -/
def cells_vertex (M : Mesh) (c lv : Nat) : Nat := (M.cells.getD c []).getD lv 0

/-- Modelled from the spec: `M.cells.connect()`, the connectivity derivation. -/
def cells_connect (M : Mesh) : Mesh := M

/-- Modelled from the spec: simplex-only validity query
`M.cells.are_simplices()`, "all cells ... are simplices (tetrahedra)". -/
def cells_are_simplices (M : Mesh) : Bool := M.cells.all fun c => c.length == 4

end Mesh

end GEO

/-! ## Mesh representation adapter (Utils.cpp, lines 25-90) -/

/-- Body of the vertex loop of `to_geogram_mesh` (lines 30-33): the three
coordinate assignments in source order, each read of `V` checked. -/
def to_geogram_mesh_point (V : Mat ℚ) (i : Nat) : Stmt GEO.Mesh := fun M =>
  match V.coeff i 0 with
  | none => (some Failure.assertion, M)
  | some x =>
    let M := M.set_point_coord i 0 x
    match V.coeff i 1 with
    | none => (some Failure.assertion, M)
    | some y =>
      let M := M.set_point_coord i 1 y
      match (if V.cols = 2 then some 0 else V.coeff i 2) with
      | none => (some Failure.assertion, M)
      | some z => (none, M.set_point_coord i 2 z)

/-- Body `M.facets.set_vertex(c, lv, F(c, lv))` of the facet loop (line 45). -/
def to_geogram_mesh_facet_corner (F : Mat Int) (c lv : Nat) : Stmt GEO.Mesh := fun M =>
  match F.coeff c lv with
  | none => (some Failure.assertion, M)
  | some v => (none, M.facets_set_vertex c lv (GEO.index_of_int v))

/-- Body `M.cells.set_vertex(c, lv, T(c, lv))` of the cell loop (line 62). -/
def to_geogram_mesh_cell_corner (T : Mat Int) (c lv : Nat) : Stmt GEO.Mesh := fun M =>
  match T.coeff c lv with
  | none => (some Failure.assertion, M)
  | some v => (none, M.cells_set_vertex c lv (GEO.index_of_int v))

/-- Vertex loop of `to_geogram_mesh` (lines 29-34). -/
def to_geogram_mesh_vertex_loop (V : Mat ℚ) : Stmt GEO.Mesh := fun M =>
  Stmt.forEach (to_geogram_mesh_point V) (List.range M.vertices_nb) M

/-- Facet corner loops of `to_geogram_mesh` (lines 43-47). -/
def to_geogram_mesh_facet_loop (F : Mat Int) : Stmt GEO.Mesh := fun M =>
  Stmt.forEach
    (fun c => Stmt.forEach (fun lv => to_geogram_mesh_facet_corner F c lv) (List.range F.cols))
    (List.range M.facets_nb) M

/-- Cell corner loops of `to_geogram_mesh` (lines 60-64). -/
def to_geogram_mesh_cell_loop (T : Mat Int) : Stmt GEO.Mesh := fun M =>
  Stmt.forEach
    (fun c => Stmt.forEach (fun lv => to_geogram_mesh_cell_corner T c lv) (List.range T.cols))
    (List.range M.cells_nb) M

/-- Function `to_geogram_mesh(V, F, M)` (lines 25-49). -/
def to_geogram_mesh (V : Mat ℚ) (F : Mat Int) : Stmt GEO.Mesh :=
  Stmt.seq (Stmt.run fun M => M.clear) <|
  Stmt.seq (Stmt.run fun M => M.create_vertices V.rows) <|
  Stmt.seq (to_geogram_mesh_vertex_loop V) <|
  Stmt.seq
    (if F.cols = 3 then Stmt.run fun M => M.create_triangles F.rows
     else if F.cols = 4 then Stmt.run fun M => M.create_quads F.rows
     else Stmt.fail (Failure.structural "Mesh faces not supported")) <|
  Stmt.seq (to_geogram_mesh_facet_loop F) <|
  Stmt.run fun M => M.facets_connect

/-- Function `to_geogram_mesh(V, F, T, M)` (lines 53-66). -/
def to_geogram_mesh_cells (V : Mat ℚ) (F T : Mat Int) : Stmt GEO.Mesh :=
  Stmt.seq (to_geogram_mesh V F) <|
  Stmt.seq
    (if T.cols = 4 then Stmt.run fun M => M.create_tets T.rows
     else if T.rows ≠ 0 then Stmt.fail (Failure.structural "Mesh cells not supported")
     else Stmt.run id) <|
  Stmt.seq (to_geogram_mesh_cell_loop T) <|
  Stmt.run fun M => M.cells_connect

/-- Function `from_geogram_mesh(M, V, F, T)` (lines 70-90). The three outputs
are resized before they are filled, so they do not depend on what `V`, `F`,
`T` held before; a failed `assert` ends the call without outputs. -/
def from_geogram_mesh (M : GEO.Mesh) : Except Failure (Mat ℚ × Mat Int × Mat Int) :=
  let V : Mat ℚ := Mat.resize M.vertices_nb 3
  let V := (List.range M.vertices_nb).foldl
    (fun V i => let p := M.point i; V.setRow3 i p.x p.y p.z) V
  if M.facets_are_simplices then
    let F : Mat Int := Mat.resize M.facets_nb 3
    let F := (List.range M.facets_nb).foldl
      (fun F c => (List.range 3).foldl
        (fun F lv => F.setCoeff c lv (GEO.int_of_index (M.facets_vertex c lv))) F) F
    if M.cells_are_simplices then
      let T : Mat Int := Mat.resize M.cells_nb 4
      let T := (List.range M.cells_nb).foldl
        (fun T c => (List.range 4).foldl
          (fun T lv => T.setCoeff c lv (GEO.int_of_index (M.cells_vertex c lv))) T) T
      Except.ok (V, F, T)
    else Except.error Failure.assertion
  else Except.error Failure.assertion

/-! ## Synthetic box domain (Utils.cpp, lines 96-124) -/

/-- Expression `p.array() - s`. -/
def RowVector3d.subScalar (p : RowVector3d) (s : ℚ) : RowVector3d :=
  ⟨p.c0 - s, p.c1 - s, p.c2 - s⟩

/-- Expression
`A.array().rowwise() * hi.array() + (1.0 - A.array()).rowwise() * lo.array()`
(lines 121 and 211): entry `(i, j)` becomes `A(i,j) * hi(j) + (1 - A(i,j)) * lo(j)`. -/
def rowwise_blend (A : Mat ℚ) (hi lo : RowVector3d) : Mat ℚ :=
  ⟨A.cols, A.data.map fun r =>
    List.zipWith (fun a j => a * hi.coeff j + (1 - a) * lo.coeff j) r (List.range r.length)⟩

/-- The 9 x 3 vertex table of `create_box_mesh` (lines 98-106); the last row is
`0.494941, 0.652018, 0.319279`. -/
def box_template_V : Mat ℚ :=
  ⟨3, [[0, 0, 0],
       [0, 0, 1],
       [0, 1, 0],
       [0, 1, 1],
       [1, 0, 0],
       [1, 0, 1],
       [1, 1, 0],
       [1, 1, 1],
       [494941 / 1000000, 652018 / 1000000, 319279 / 1000000]]⟩

/-- The 12 x 4 one-based cell table of `create_box_mesh` (lines 108-119). -/
def box_template_T : Mat Int :=
  ⟨4, [[1, 3, 4, 9],
       [7, 4, 9, 8],
       [2, 9, 4, 8],
       [2, 9, 6, 1],
       [9, 2, 6, 8],
       [2, 9, 1, 4],
       [6, 9, 5, 1],
       [6, 7, 9, 8],
       [6, 7, 5, 9],
       [5, 3, 1, 9],
       [7, 4, 3, 9],
       [3, 5, 7, 9]]⟩

/-- Statement `T.array() -= 1` (line 120). -/
def Mat.subScalar (T : Mat Int) (s : Int) : Mat Int :=
  ⟨T.cols, T.data.map (List.map fun t => t - s)⟩

/-- Function `create_box_mesh(pmin, pmax, padding, M)` (lines 96-124). -/
def create_box_mesh (pmin pmax : RowVector3d) (padding : ℚ) : Stmt GEO.Mesh :=
  let V := box_template_V
  let T := box_template_T
  let T := T.subScalar 1
  let V := rowwise_blend V (pmax.addScalar padding) (pmin.subScalar padding)
  let F : Mat Int := ⟨3, []⟩
  to_geogram_mesh_cells V F T

/-- Signed volume of the tetrahedron `(a, b, c, d)`:
`dot(b - a, cross(c - a, d - a)) / 6`. -/
def signed_volume (a b c d : GEO.vec3) : ℚ :=
  ((b.x - a.x) * ((c.y - a.y) * (d.z - a.z) - (c.z - a.z) * (d.y - a.y))
    + (b.y - a.y) * ((c.z - a.z) * (d.x - a.x) - (c.x - a.x) * (d.z - a.z))
    + (b.z - a.z) * ((c.x - a.x) * (d.y - a.y) - (c.y - a.y) * (d.x - a.x))) / 6

/-- Signed volume of a cell of a kernel mesh, read through its 4 corners. -/
def cell_volume (M : GEO.Mesh) (cell : List Nat) : ℚ :=
  signed_volume (M.point (cell.getD 0 0)) (M.point (cell.getD 1 0))
    (M.point (cell.getD 2 0)) (M.point (cell.getD 3 0))

/-! ## Relaxation service and sample set -/

namespace GEO

/-- Modelled from the spec: the sample set of the relaxation service
(`GEO::CentroidalVoronoiTesselation`; geogram is not part of the sources). The
embedding is the flat coordinate buffer, 3 consecutive entries per point, and
the locked points are kept by index. The progress logger and the iteration
display flag do not act on the sample set and are left out. -/
structure CentroidalVoronoiTesselation where
  mesh : Mesh
  volumetric : Bool
  points : List ℚ
  locked : List Nat
  deriving DecidableEq, Repr

namespace CentroidalVoronoiTesselation

/-- Constructor `CentroidalVoronoiTesselation CVT(&M)`: no points yet. -/
def create (M : Mesh) : CentroidalVoronoiTesselation := ⟨M, false, [], []⟩

/-- Setter `CVT.set_volumetric(b)`. -/
def set_volumetric (c : CentroidalVoronoiTesselation) (b : Bool) : CentroidalVoronoiTesselation :=
  { c with volumetric := b }

/-- Count `CVT.nb_points()`: the buffer length over the dimension 3. -/
def nb_points (c : CentroidalVoronoiTesselation) : Nat := c.points.length / 3

/-- Modelled from the spec: point-set growth `CVT.resize_points(n)`. The buffer
is resized to `3 * n` entries like a `std::vector`: the entries it keeps stay
where they are and new entries are zero. -/
def resize_points (c : CentroidalVoronoiTesselation) (n : Nat) : CentroidalVoronoiTesselation :=
  { c with points := c.points.take (3 * n) ++ List.replicate (3 * n - c.points.length) 0 }

/-- Modelled from the spec: locking primitive `CVT.lock_point(i)`. -/
def lock_point (c : CentroidalVoronoiTesselation) (i : Nat) : CentroidalVoronoiTesselation :=
  { c with locked := i :: c.locked }

end CentroidalVoronoiTesselation

end GEO

/-- Call `std::copy_n(src, n, dst + off)` on coordinate buffers. -/
def copy_n (src : List ℚ) (n : Nat) (dst : List ℚ) (off : Nat) : List ℚ :=
  (List.range n).foldl (fun d k => d.set (off + k) (src.getD k 0)) dst

/-- Call `std::copy_n(src, n, CVT.embedding(i))`: the pointer `embedding(i)`
is the buffer at offset `3 * i`. -/
def copy_n_to_embedding (c : GEO.CentroidalVoronoiTesselation) (src : List ℚ) (n i : Nat) :
    GEO.CentroidalVoronoiTesselation :=
  { c with points := copy_n src n c.points (3 * i) }

/-- The relaxation service, an external collaborator taken as a parameter:
initial sampling and the two relaxation rules. A relaxation call returns the
sample set as it leaves it together with whether it ended by throwing
`GEO::TaskCanceled`. -/
structure RelaxationService where
  compute_initial_sampling : GEO.CentroidalVoronoiTesselation → Nat →
    GEO.CentroidalVoronoiTesselation
  Lloyd_iterations : GEO.CentroidalVoronoiTesselation → Nat →
    Bool × GEO.CentroidalVoronoiTesselation
  Newton_iterations : GEO.CentroidalVoronoiTesselation → Nat →
    Bool × GEO.CentroidalVoronoiTesselation

/-- Assumption on the service: initial sampling yields `n` points. -/
def RelaxationService.SamplingYields (svc : RelaxationService) : Prop :=
  ∀ c n, (svc.compute_initial_sampling c n).points.length = 3 * n

/-- Assumption on a relaxation rule: it does not change the point count,
cancelled or not. -/
def PreservesCount
    (relax : GEO.CentroidalVoronoiTesselation → Nat → Bool × GEO.CentroidalVoronoiTesselation) :
    Prop :=
  ∀ c k, (relax c k).2.points.length = c.points.length

/-- Assumption on a relaxation rule: locked points stay locked and keep their
three coordinates, cancelled or not. -/
def LeavesLockedUnmoved
    (relax : GEO.CentroidalVoronoiTesselation → Nat → Bool × GEO.CentroidalVoronoiTesselation) :
    Prop :=
  ∀ c k, ∀ i ∈ c.locked,
    i ∈ (relax c k).2.locked ∧ ∀ d, d < 3 → (relax c k).2.points[3 * i + d]? = c.points[3 * i + d]?

/-- A call made to the relaxation service, with its round count and whether it
ended by `GEO::TaskCanceled`. -/
inductive RelaxCall where
  | Lloyd (nb_iter : Nat) (canceled : Bool)
  | Newton (nb_iter : Nat) (canceled : Bool)
  deriving DecidableEq, Repr

/-- The sample set of a sampling call together with the record of the
relaxation calls made so far (the record is not program state; it is kept to
state which phases ran). -/
structure SamplerState where
  CVT : GEO.CentroidalVoronoiTesselation
  calls : List RelaxCall
  deriving DecidableEq, Repr

/-- The Lloyd phase (lines 228-235 and 268-275): skipped unless
`num_lloyd > 0`; a `TaskCanceled` is caught and dropped. -/
def lloyd_phase (svc : RelaxationService) (num_lloyd : Int) (st : SamplerState) : SamplerState :=
  if num_lloyd > 0 then
    let r := svc.Lloyd_iterations st.CVT num_lloyd.toNat
    ⟨r.2, st.calls ++ [RelaxCall.Lloyd num_lloyd.toNat r.1]⟩
  else st

/-- The Newton phase (lines 237-244 and 277-284): skipped unless
`num_newton > 0`; a `TaskCanceled` is caught and dropped. -/
def newton_phase (svc : RelaxationService) (num_newton : Int) (st : SamplerState) : SamplerState :=
  if num_newton > 0 then
    let r := svc.Newton_iterations st.CVT num_newton.toNat
    ⟨r.2, st.calls ++ [RelaxCall.Newton num_newton.toNat r.1]⟩
  else st

/-! ## Constrained volumetric sampler (Utils.cpp, lines 176-251) -/

/-- Reduction `V.colwise().minCoeff()`; `none` is the failed check on an empty
matrix. -/
def Mat.colwise_minCoeff (V : Mat ℚ) : Option (List ℚ) :=
  match V.data with
  | [] => none
  | r :: rs =>
    some ((List.range V.cols).map fun j => rs.foldl (fun m r1 => min m (r1.getD j 0)) (r.getD j 0))

/-- Reduction `V.colwise().maxCoeff()`; `none` is the failed check on an empty
matrix. -/
def Mat.colwise_maxCoeff (V : Mat ℚ) : Option (List ℚ) :=
  match V.data with
  | [] => none
  | r :: rs =>
    some ((List.range V.cols).map fun j => rs.foldl (fun m r1 => max m (r1.getD j 0)) (r.getD j 0))

/-- Assignment of a dynamically sized row to an `Eigen::RowVector3d`; `none` is
the failed size check (the row must have 3 entries). -/
def RowVector3d.ofDynamic (l : Option (List ℚ)) : Option RowVector3d :=
  match l with
  | some [a, b, c] => some ⟨a, b, c⟩
  | _ => none

/-- The 8 x 3 row-major corner table `B` of `sample_bbox` (lines 203-210). -/
def bbox_template_B : Mat ℚ :=
  ⟨3, [[0, 0, 0],
       [0, 0, 1],
       [0, 1, 0],
       [0, 1, 1],
       [1, 0, 0],
       [1, 0, 1],
       [1, 1, 0],
       [1, 1, 1]]⟩

/-- The padded corner table of `sample_bbox` after line 211. -/
def bbox_corners (pmin pmax : RowVector3d) (padding : ℚ) : Mat ℚ :=
  rowwise_blend bbox_template_B (pmax.addScalar padding) (pmin.subScalar padding)

/-- Matrix with `r` rows and `c` columns whose column-major storage
(`P.data()`) holds the first `r * c` entries of `buf`, as after
`P.resize(r, c); std::copy_n(buf, r * c, P.data())`. -/
def Mat.ofColMajor (r c : Nat) (buf : List ℚ) : Mat ℚ :=
  ⟨c, (List.range r).map fun i => (List.range c).map fun j => buf.getD (i + r * j) 0⟩

/-- Result of `P.transposeInPlace()`. -/
def Mat.transposeInPlace (m : Mat ℚ) : Mat ℚ :=
  ⟨m.rows, (List.range m.cols).map fun j => (List.range m.rows).map fun i =>
    (m.data.getD i []).getD j 0⟩

/-- Loop over the constrained points (lines 196-200): row `v` of `V` is copied
to point `num_samples + v`, which is locked. -/
def lock_input_points (V : Mat ℚ) (n : Nat) (c : GEO.CentroidalVoronoiTesselation) :
    GEO.CentroidalVoronoiTesselation :=
  (List.range V.rows).foldl
    (fun c v => (copy_n_to_embedding c (V.data.getD v []) 3 (n + v)).lock_point (n + v)) c

/-- Copy and lock of the 8 box corners (lines 212-215). -/
def lock_bbox_corners (B : Mat ℚ) (first : Nat) (c : GEO.CentroidalVoronoiTesselation) :
    GEO.CentroidalVoronoiTesselation :=
  (List.range 8).foldl (fun c v => c.lock_point (first + v))
    (copy_n_to_embedding c B.data.flatten (3 * 8) first)

/-- Lines 179-216 of `sample_bbox`: the sample set handed to the relaxation
phases, holding the free samples, then the locked rows of `V`, then the 8
locked box corners. -/
def sample_bbox_setup (svc : RelaxationService) (V : Mat ℚ) (num_samples : Int) (padding : ℚ) :
    Except Failure GEO.CentroidalVoronoiTesselation :=
  if num_samples > 3 then
    match RowVector3d.ofDynamic V.colwise_minCoeff, RowVector3d.ofDynamic V.colwise_maxCoeff with
    | some pmin, some pmax =>
      match create_box_mesh pmin pmax padding ⟨[], [], []⟩ with
      | (some e, _) => Except.error e
      | (none, M) =>
        let n := num_samples.toNat
        let CVT := (GEO.CentroidalVoronoiTesselation.create M).set_volumetric true
        let CVT := svc.compute_initial_sampling CVT n
        let CVT := CVT.resize_points (n + V.rows + 8)
        let CVT := lock_input_points V n CVT
        let B := bbox_corners pmin pmax padding
        Except.ok (lock_bbox_corners B (n + V.rows) CVT)
    | _, _ => Except.error Failure.assertion
  else Except.error Failure.assertion

/-- Lines 179-244 of `sample_bbox`: the sample set after the relaxation
phases, with the record of the relaxation calls. -/
def sample_bbox_state (svc : RelaxationService) (V : Mat ℚ) (num_samples : Int) (padding : ℚ)
    (num_lloyd num_newton : Int) : Except Failure SamplerState :=
  match sample_bbox_setup svc V num_samples padding with
  | Except.ok CVT => Except.ok (newton_phase svc num_newton (lloyd_phase svc num_lloyd ⟨CVT, []⟩))
  | Except.error e => Except.error e

/-- Lines 246-248: `P.resize(3, nb); copy_n(embedding(0), 3 * nb, P.data());
P.transposeInPlace()`. -/
def embedding_to_matrix (points : List ℚ) (nb : Nat) : Mat ℚ :=
  (Mat.ofColMajor 3 nb points).transposeInPlace

/-- Function `sample_bbox(V, num_samples, padding, P, num_lloyd, num_newton)`
(lines 176-251): the output `P`. -/
def sample_bbox (svc : RelaxationService) (V : Mat ℚ) (num_samples : Int) (padding : ℚ)
    (num_lloyd num_newton : Int) : Except Failure (Mat ℚ) :=
  match sample_bbox_state svc V num_samples padding num_lloyd num_newton with
  | Except.ok st => Except.ok (embedding_to_matrix st.CVT.points st.CVT.nb_points)
  | Except.error e => Except.error e

/-! ## Surface resampler (Utils.cpp, lines 255-291) -/

/-- Lines 258-266 of `resample_surface`: the sample set handed to the
relaxation phases (all points free). -/
def resample_surface_setup (svc : RelaxationService) (V : Mat ℚ) (F : Mat Int)
    (num_samples : Int) : Except Failure GEO.CentroidalVoronoiTesselation :=
  if num_samples > 3 then
    match to_geogram_mesh V F ⟨[], [], []⟩ with
    | (some e, _) => Except.error e
    | (none, M) =>
      let CVT := GEO.CentroidalVoronoiTesselation.create M
      Except.ok (svc.compute_initial_sampling CVT num_samples.toNat)
  else Except.error Failure.assertion

/-- Lines 258-284 of `resample_surface`: the sample set after the relaxation
phases, with the record of the relaxation calls. -/
def resample_surface_state (svc : RelaxationService) (V : Mat ℚ) (F : Mat Int)
    (num_samples : Int) (num_lloyd num_newton : Int) : Except Failure SamplerState :=
  match resample_surface_setup svc V F num_samples with
  | Except.ok CVT => Except.ok (newton_phase svc num_newton (lloyd_phase svc num_lloyd ⟨CVT, []⟩))
  | Except.error e => Except.error e

/-- Function `resample_surface(V, F, num_samples, P, num_lloyd, num_newton)`
(lines 255-291): the output `P`, of `num_samples` points. -/
def resample_surface (svc : RelaxationService) (V : Mat ℚ) (F : Mat Int)
    (num_samples : Int) (num_lloyd num_newton : Int) : Except Failure (Mat ℚ) :=
  match resample_surface_state svc V F num_samples num_lloyd num_newton with
  | Except.ok st => Except.ok (embedding_to_matrix st.CVT.points num_samples.toNat)
  | Except.error e => Except.error e

/-! ## Closed forms used by the statements -/

/-- Kernel point written by the vertex loop of `to_geogram_mesh` for the row
`r` of a coordinate matrix with `cols` columns (`z` is 0 for a 2D input). -/
def pointOfRow (cols : Nat) (r : List ℚ) : GEO.vec3 :=
  ⟨r.getD 0 0, r.getD 1 0, if cols = 2 then 0 else r.getD 2 0⟩

/-- Row written by `V.row(i) << p[0], p[1], p[2]` in `from_geogram_mesh`. -/
def rowOfPoint (p : GEO.vec3) : List ℚ := [p.x, p.y, p.z]

/-- The sample set after the first `j` rounds of the loop over the constrained
points (`lock_input_points` is the case `j = V.rows()`). -/
def lock_input_points_upto (V : Mat ℚ) (n j : Nat) (c : GEO.CentroidalVoronoiTesselation) :
    GEO.CentroidalVoronoiTesselation :=
  (List.range j).foldl
    (fun c v => (copy_n_to_embedding c (V.data.getD v []) 3 (n + v)).lock_point (n + v)) c

/-- The value of `pmin` in `sample_bbox` (line 183) when the assignment does
not fail. -/
def Mat.minCorner (V : Mat ℚ) : RowVector3d :=
  (RowVector3d.ofDynamic V.colwise_minCoeff).getD ⟨0, 0, 0⟩

/-- The value of `pmax` in `sample_bbox` (line 184) when the assignment does
not fail. -/
def Mat.maxCorner (V : Mat ℚ) : RowVector3d :=
  (RowVector3d.ofDynamic V.colwise_maxCoeff).getD ⟨0, 0, 0⟩

/-- The padded box domain mesh `M` of `sample_bbox` (line 188). -/
def sample_bbox_domain (V : Mat ℚ) (padding : ℚ) : GEO.Mesh :=
  (create_box_mesh V.minCorner V.maxCorner padding ⟨[], [], []⟩).2

/-- The sample set of `sample_bbox` right after the initial sampling
(line 192): the free samples. -/
def sample_bbox_initial (svc : RelaxationService) (V : Mat ℚ) (num_samples : Int) (padding : ℚ) :
    GEO.CentroidalVoronoiTesselation :=
  svc.compute_initial_sampling
    ((GEO.CentroidalVoronoiTesselation.create (sample_bbox_domain V padding)).set_volumetric true)
    num_samples.toNat

/-- Corner `k` of the cuboid `[lo, hi]`, `k < 8`, with `k` read in binary as
`(k / 4, k / 2 % 2, k % 2)`: on each axis the coordinate is that of `hi` where
the bit is 1 and that of `lo` where it is 0. -/
def box_corner (lo hi : RowVector3d) (k : Nat) : GEO.vec3 :=
  ⟨if k / 4 % 2 = 1 then hi.c0 else lo.c0,
   if k / 2 % 2 = 1 then hi.c1 else lo.c1,
   if k % 2 = 1 then hi.c2 else lo.c2⟩

/-- The interior vertex of the box domain, at the fractional offset
`(0.494941, 0.652018, 0.319279)` of the cuboid `[lo, hi]`. -/
def box_interior (lo hi : RowVector3d) : GEO.vec3 :=
  ⟨494941 / 1000000 * hi.c0 + (1 - 494941 / 1000000) * lo.c0,
   652018 / 1000000 * hi.c1 + (1 - 652018 / 1000000) * lo.c1,
   319279 / 1000000 * hi.c2 + (1 - 319279 / 1000000) * lo.c2⟩

/-- The 12 cells of the box domain as kernel corner indices. -/
def box_cells : List (List Nat) :=
  [[0, 2, 3, 8], [6, 3, 8, 7], [1, 8, 3, 7], [1, 8, 5, 0], [8, 1, 5, 7], [1, 8, 0, 3],
   [5, 8, 4, 0], [5, 6, 8, 7], [5, 6, 4, 8], [4, 2, 0, 8], [6, 3, 2, 8], [2, 4, 6, 8]]

/-- Bit of corner `k` on axis `a` (0, 1, 2 for x, y, z), with `k` read in
binary as `(k / 4, k / 2 % 2, k % 2)`. -/
def corner_bit (a k : Nat) : Nat :=
  match a with
  | 0 => k / 4 % 2
  | 1 => k / 2 % 2
  | _ => k % 2

/-- The corners of a cell of the box domain other than the interior vertex
(index 8). -/
def cell_base (cell : List Nat) : List Nat := cell.filter fun k => k != 8

/-- The base of the cell is a triangle with three distinct corners on the face
of the cuboid where the bit of axis `a` is `side`. -/
def base_on_face (a side : Nat) (cell : List Nat) : Bool :=
  (cell_base cell).length == 3 && (cell_base cell).eraseDups.length == 3 &&
    (cell_base cell).all fun k => k < 8 && corner_bit a k == side

/-- The cells form a fan around the interior vertex over a triangulation of the
surface of the cuboid: every cell joins vertex 8 to a triangle lying on a face,
and every one of the 6 faces carries exactly two of these triangles, whose
common corners are the two ends of a diagonal of the face. -/
def is_fan_over_faces (cells : List (List Nat)) : Bool :=
  (cells.all fun c => c.length == 4 && c.contains 8 &&
    (List.range 3).any fun a => (List.range 2).any fun side => base_on_face a side c) &&
  (List.range 3).all fun a => (List.range 2).all fun side =>
    match cells.filter (base_on_face a side) with
    | [c1, c2] =>
      (match (cell_base c1).filter fun k => (cell_base c2).contains k with
       | [k1, k2] => (List.range 3).all fun b => b == a || corner_bit b k1 != corner_bit b k2
       | _ => false)
    | _ => false

/-- Six times the share of the cuboid volume taken by each of the 12 cells of
the box domain, in cell order. -/
def box_cell_weights : List ℚ :=
  [494941 / 1000000, 173991 / 500000, 680721 / 1000000, 326009 / 500000, 680721 / 1000000,
   494941 / 1000000, 326009 / 500000, 505059 / 1000000, 505059 / 1000000, 319279 / 1000000,
   173991 / 500000, 319279 / 1000000]

/-! ## A relaxation service run round by round -/

/-- Modelled from the spec: a relaxation rule "advanceable by a caller-specified
number of rounds with per-round cancellation checks". The rule runs `step`
once per round; when cancellation is signalled before round `k` (counted from
0) and `k < nb_iter`, it stops there and reports `TaskCanceled`, keeping the
progress of the first `k` rounds. -/
def relax_rounds (step : GEO.CentroidalVoronoiTesselation → GEO.CentroidalVoronoiTesselation)
    (cancel_before : Option Nat) (c : GEO.CentroidalVoronoiTesselation) (nb_iter : Nat) :
    Bool × GEO.CentroidalVoronoiTesselation :=
  match cancel_before with
  | some k => if k < nb_iter then (true, Nat.iterate step k c) else (false, Nat.iterate step nb_iter c)
  | none => (false, Nat.iterate step nb_iter c)

/-- One round of a stand-in relaxation rule: every coordinate of a free point
is halved, locked points are left where they are. -/
def halve_free_points (c : GEO.CentroidalVoronoiTesselation) : GEO.CentroidalVoronoiTesselation :=
  { c with points := (List.range c.points.length).map fun k =>
      if k / 3 ∈ c.locked then c.points.getD k 0 else c.points.getD k 0 / 2 }

/-- A stand-in initial sampling: `n` points with coordinates `1, 2, 3, ...`. -/
def counting_sampling (c : GEO.CentroidalVoronoiTesselation) (n : Nat) :
    GEO.CentroidalVoronoiTesselation :=
  { c with points := (List.range (3 * n)).map fun (k : Nat) => ((k : ℚ) + 1) }

/-- A stand-in relaxation service: both rules halve the free points once per
round, with the given cancellation rounds. -/
def halving_service (cancel_lloyd cancel_newton : Option Nat) : RelaxationService :=
  ⟨counting_sampling, relax_rounds halve_free_points cancel_lloyd,
    relax_rounds halve_free_points cancel_newton⟩

/-! ## Concrete inputs -/

/-- Lower bounds of the unit cube. -/
def unit_pmin : RowVector3d := ⟨0, 0, 0⟩

/-- Upper bounds of the unit cube. -/
def unit_pmax : RowVector3d := ⟨1, 1, 1⟩

/-- Two points, opposite corners of the box `[1, 3] x [1, 5] x [3, 9]`. -/
def two_points_V : Mat ℚ := ⟨3, [[1, 5, 3], [3, 1, 9]]⟩

/-- The empty kernel mesh of a fresh `GEO::Mesh M`. -/
def empty_mesh : GEO.Mesh := ⟨[], [], []⟩

/-- A face list with no rows and 3 columns, `Eigen::MatrixXi F(0, 3)`. -/
def no_triangles : Mat Int := ⟨3, []⟩

/-- A cell list with no rows and 4 columns. -/
def no_tets : Mat Int := ⟨4, []⟩

/-- A single point, as a 1 x 3 coordinate matrix. -/
def single_point_V : Mat ℚ := ⟨3, [[0, 0, 0]]⟩

/-- A face list of arity 5 with no rows. -/
def no_pentagons : Mat Int := ⟨5, []⟩

/-- A cell list of arity 5 with one row. -/
def one_arity5_cell : Mat Int := ⟨5, [[0, 0, 0, 0, 0]]⟩

/-- The corners of the unit square in the plane `z = 0`. -/
def unit_square_V : Mat ℚ := ⟨3, [[0, 0, 0], [1, 0, 0], [1, 1, 0], [0, 1, 0]]⟩

/-- The unit square as one quad. -/
def unit_square_quad : Mat Int := ⟨4, [[0, 1, 2, 3]]⟩

/-- The unit square as two triangles. -/
def unit_square_triangles : Mat Int := ⟨3, [[0, 1, 2], [0, 2, 3]]⟩

/-! ## Loop lemmas -/

section Loops

variable {σ β : Type}

theorem Stmt.forEach_run (body : Nat → Stmt σ) (f : Nat → σ → σ) (l : List Nat)
    (h : ∀ i ∈ l, ∀ s, body i s = (none, f i s)) (s : σ) :
    Stmt.forEach body l s = (none, l.foldl (fun s i => f i s) s) := by
  induction l generalizing s with
  | nil => rfl
  | cons i rest ih =>
    simp only [Stmt.forEach, Stmt.seq, List.foldl_cons]
    rw [h i (List.mem_cons_self _ _)]
    exact ih (fun j hj => h j (List.mem_cons_of_mem _ hj)) _

theorem length_foldl_set (h : Nat → β) (is : List Nat) (l : List β) :
    (is.foldl (fun l i => l.set i (h i)) l).length = l.length := by
  induction is generalizing l with
  | nil => rfl
  | cons i rest ih => simp [ih]

theorem getElem?_foldl_set_range (h : Nat → β) (j : Nat) (l : List β) (i : Nat) :
    ((List.range j).foldl (fun l i => l.set i (h i)) l)[i]? =
      if i < j then (if i < l.length then some (h i) else none) else l[i]? := by
  induction j with
  | zero => simp
  | succ j ih =>
    rw [List.range_succ, List.foldl_append, List.foldl_cons, List.foldl_nil,
      List.getElem?_set, ih, length_foldl_set]
    by_cases h1 : j = i
    · subst h1; simp
    · by_cases h2 : i < j
      · have : i < j + 1 := by omega
        simp [h1, h2, this]
      · have : ¬ i < j + 1 := by omega
        simp [h1, h2, this]

/-- A counting loop that overwrites every entry computes the table of the
written values. -/
theorem foldl_set_range_eq (h : Nat → β) (l : List β) :
    (List.range l.length).foldl (fun l i => l.set i (h i)) l = (List.range l.length).map h := by
  apply List.ext_getElem?
  intro i
  rw [getElem?_foldl_set_range, List.getElem?_map]
  by_cases hi : i < l.length
  · simp [hi, List.getElem?_range hi]
  · have h1 : l.length ≤ i := by omega
    have h2 : (List.range l.length)[i]? = none := List.getElem?_eq_none (by simpa using h1)
    simp [hi, h2, List.getElem?_eq_none h1]

theorem length_set2 (L : List (List β)) (i j : Nat) (v : β) : (set2 L i j v).length = L.length := by
  simp [set2]

theorem foldl_set2_row (g : Nat → β) (is : List Nat) (L : List (List β)) (c : Nat)
    (hc : c < L.length) :
    is.foldl (fun L lv => set2 L c lv (g lv)) L =
      L.set c (is.foldl (fun r lv => r.set lv (g lv)) (L.getD c [])) := by
  induction is generalizing L with
  | nil =>
    apply List.ext_getElem?
    intro i
    simp only [List.foldl_nil, List.getElem?_set]
    by_cases h : c = i
    · subst h; simp [hc, List.getD_eq_getElem?_getD]
    · simp [h]
  | cons lv rest ih =>
    rw [List.foldl_cons, ih _ (by simpa [length_set2] using hc)]
    simp only [set2, List.foldl_cons, List.set_set]
    congr 2
    simp [List.getD_eq_getElem?_getD, hc]

theorem length_foldl_fill2 (g : Nat → Nat → β) (k : Nat) (is : List Nat) (L : List (List β)) :
    (is.foldl (fun L c => (List.range k).foldl (fun L lv => set2 L c lv (g c lv)) L) L).length
      = L.length := by
  induction is generalizing L with
  | nil => rfl
  | cons c rest ih =>
    rw [List.foldl_cons, ih]
    generalize List.range k = ks
    induction ks generalizing L with
    | nil => rfl
    | cons lv ks ih2 => rw [List.foldl_cons, ih2, length_set2]

theorem getElem?_foldl_fill2 (g : Nat → Nat → β) (k j : Nat) (L : List (List β))
    (hL : ∀ r ∈ L, r.length = k) (hj : j ≤ L.length) (i : Nat) :
    ((List.range j).foldl
        (fun L c => (List.range k).foldl (fun L lv => set2 L c lv (g c lv)) L) L)[i]? =
      if i < j then some ((List.range k).map (g i)) else L[i]? := by
  induction j generalizing i with
  | zero => simp
  | succ j ih =>
    have hj1 : j < L.length := by omega
    rw [List.range_succ, List.foldl_append, List.foldl_cons, List.foldl_nil]
    rw [foldl_set2_row _ _ _ _ (by rw [length_foldl_fill2]; exact hj1)]
    have hrow : (List.foldl
        (fun L c => (List.range k).foldl (fun L lv => set2 L c lv (g c lv)) L) L
        (List.range j)).getD j [] = L[j] := by
      rw [List.getD_eq_getElem?_getD, ih (by omega) j]
      simp [hj1]
    rw [hrow, List.getElem?_set, length_foldl_fill2, ih (by omega) i]
    have hk : (L[j]).length = k := hL _ (List.getElem_mem _)
    have hfill := foldl_set_range_eq (g j) (L[j])
    rw [hk] at hfill
    rw [hfill]
    by_cases h1 : j = i
    · subst h1; simp [hj1]
    · by_cases h2 : i < j
      · have : i < j + 1 := by omega
        simp [h1, h2, this]
      · have : ¬ i < j + 1 := by omega
        simp [h1, h2, this]

/-- The nested counting loops that overwrite every entry of every row compute
the table of the written values. -/
theorem foldl_fill2_eq (g : Nat → Nat → β) (k : Nat) (L : List (List β))
    (hL : ∀ r ∈ L, r.length = k) :
    (List.range L.length).foldl
        (fun L c => (List.range k).foldl (fun L lv => set2 L c lv (g c lv)) L) L =
      (List.range L.length).map fun c => (List.range k).map (g c) := by
  apply List.ext_getElem?
  intro i
  rw [getElem?_foldl_fill2 g k _ L hL (le_refl _), List.getElem?_map]
  by_cases hi : i < L.length
  · simp [hi, List.getElem?_range hi]
  · have h1 : L.length ≤ i := by omega
    have h2 : (List.range L.length)[i]? = none := List.getElem?_eq_none (by simpa using h1)
    simp [hi, h2, List.getElem?_eq_none h1]

/-- Reading a list back entry by entry. -/
theorem map_range_getD (f : β → σ) (d : β) (l : List β) :
    (List.range l.length).map (fun i => f (l.getD i d)) = l.map f := by
  apply List.ext_getElem?
  intro i
  rw [List.getElem?_map, List.getElem?_map]
  by_cases hi : i < l.length
  · simp [hi, List.getElem?_range hi, List.getD_eq_getElem?_getD]
  · have h1 : l.length ≤ i := by omega
    have h2 : (List.range l.length)[i]? = none := List.getElem?_eq_none (by simpa using h1)
    simp [h2, List.getElem?_eq_none h1]

end Loops

/-! ## The adapter in closed form -/

section Adapter

theorem Stmt.seq_run {σ : Type} (f : σ → σ) (b : Stmt σ) (s : σ) :
    Stmt.seq (Stmt.run f) b s = b (f s) := rfl

theorem Stmt.seq_of_ok {σ : Type} (a b : Stmt σ) (s s1 : σ) (h : a s = (none, s1)) :
    Stmt.seq a b s = b s1 := by
  simp only [Stmt.seq, h]

theorem Stmt.seq_of_fail {σ : Type} (a b : Stmt σ) (s s1 : σ) (e : Failure)
    (h : a s = (some e, s1)) : Stmt.seq a b s = (some e, s1) := by
  simp only [Stmt.seq, h]

theorem Mat.coeff_eq {α : Type} (m : Mat α) (hm : m.WF) (d : α) (i j : Nat)
    (hi : i < m.rows) (hj : j < m.cols) :
    m.coeff i j = some ((m.data.getD i []).getD j d) := by
  have hi1 : i < m.data.length := hi
  have hr : (m.data[i]).length = m.cols := hm _ (List.getElem_mem _)
  simp only [Mat.coeff, List.getElem?_eq_getElem hi1, List.getD_eq_getElem _ _ hi1]
  rw [List.getElem?_eq_getElem (by omega), List.getD_eq_getElem _ _ (by omega)]

theorem to_geogram_mesh_point_eq (V : Mat ℚ) (hV : V.WF) (hc : 2 ≤ V.cols) (i : Nat)
    (hi : i < V.rows) (M : GEO.Mesh) :
    to_geogram_mesh_point V i M =
      (none, { M with vertices := M.vertices.set i (pointOfRow V.cols (V.data.getD i [])) }) := by
  have h2 : (if V.cols = 2 then some 0 else V.coeff i 2) =
      some (if V.cols = 2 then 0 else (V.data.getD i []).getD 2 0) := by
    by_cases h : V.cols = 2
    · simp [h]
    · simp only [h, if_false]
      exact Mat.coeff_eq V hV 0 i 2 hi (by omega)
  simp only [to_geogram_mesh_point, Mat.coeff_eq V hV 0 i 0 hi (by omega),
    Mat.coeff_eq V hV 0 i 1 hi (by omega), h2]
  by_cases hlen : i < M.vertices.length
  · simp [GEO.Mesh.set_point_coord, GEO.Mesh.point, pointOfRow, List.getD_eq_getElem?_getD, hlen]
  · have hle : M.vertices.length ≤ i := by omega
    simp [GEO.Mesh.set_point_coord, List.set_eq_of_length_le hle]

theorem foldl_vertices_set (h : Nat → GEO.vec3) (is : List Nat) (M : GEO.Mesh) :
    is.foldl (fun M i => { M with vertices := M.vertices.set i (h i) }) M =
      { M with vertices := is.foldl (fun vs i => vs.set i (h i)) M.vertices } := by
  induction is generalizing M with
  | nil => rfl
  | cons i rest ih => rw [List.foldl_cons, ih, List.foldl_cons]

theorem foldl_facets_set_vertex (g : Nat → Nat → Nat) (ks is : List Nat) (M : GEO.Mesh) :
    is.foldl (fun M c => ks.foldl (fun M lv => M.facets_set_vertex c lv (g c lv)) M) M =
      { M with facets :=
          is.foldl (fun L c => ks.foldl (fun L lv => set2 L c lv (g c lv)) L) M.facets } := by
  have inner : ∀ (c : Nat) (ks : List Nat) (M : GEO.Mesh),
      ks.foldl (fun M lv => M.facets_set_vertex c lv (g c lv)) M =
        { M with facets := ks.foldl (fun L lv => set2 L c lv (g c lv)) M.facets } := by
    intro c ks
    induction ks with
    | nil => intro M; rfl
    | cons lv ks ih => intro M; rw [List.foldl_cons, ih, List.foldl_cons]; rfl
  induction is generalizing M with
  | nil => rfl
  | cons c rest ih => rw [List.foldl_cons, ih, List.foldl_cons, inner]

theorem foldl_cells_set_vertex (g : Nat → Nat → Nat) (ks is : List Nat) (M : GEO.Mesh) :
    is.foldl (fun M c => ks.foldl (fun M lv => M.cells_set_vertex c lv (g c lv)) M) M =
      { M with cells :=
          is.foldl (fun L c => ks.foldl (fun L lv => set2 L c lv (g c lv)) L) M.cells } := by
  have inner : ∀ (c : Nat) (ks : List Nat) (M : GEO.Mesh),
      ks.foldl (fun M lv => M.cells_set_vertex c lv (g c lv)) M =
        { M with cells := ks.foldl (fun L lv => set2 L c lv (g c lv)) M.cells } := by
    intro c ks
    induction ks with
    | nil => intro M; rfl
    | cons lv ks ih => intro M; rw [List.foldl_cons, ih, List.foldl_cons]; rfl
  induction is generalizing M with
  | nil => rfl
  | cons c rest ih => rw [List.foldl_cons, ih, List.foldl_cons, inner]

/-- Reading a table of rows of length `k` back entry by entry. -/
theorem table_eq_map {β γ : Type} (f : β → γ) (d : β) (k : Nat) (L : List (List β))
    (hL : ∀ r ∈ L, r.length = k) :
    ((List.range L.length).map fun c =>
        (List.range k).map fun lv => f ((L.getD c []).getD lv d)) = L.map (List.map f) := by
  have h := map_range_getD (fun r : List β => (List.range k).map fun lv => f (r.getD lv d)) [] L
  rw [h]
  apply List.map_congr_left
  intro r hr
  rw [← hL r hr]
  exact map_range_getD f d r

/-- Table of corner indices read back from an index matrix: the rows of the
matrix, each entry converted to `index_t`. -/
theorem table_of_index_matrix (F : Mat Int) (hF : F.WF) :
    ((List.range F.rows).map fun c =>
        (List.range F.cols).map fun lv => GEO.index_of_int ((F.data.getD c []).getD lv 0)) =
      F.data.map (List.map GEO.index_of_int) :=
  table_eq_map GEO.index_of_int 0 F.cols F.data hF

/-- Corner loop of `to_geogram_mesh` over the facets: on a well formed `F` it
writes every corner of the freshly created facets. -/
theorem facet_loop_eq (F : Mat Int) (hF : F.WF) (k : Nat) (hk : k = F.cols) (M : GEO.Mesh)
    (hM : M.facets = List.replicate F.rows (List.replicate k 0)) :
    to_geogram_mesh_facet_loop F M =
      (none, { M with facets := F.data.map (List.map GEO.index_of_int) }) := by
  unfold to_geogram_mesh_facet_loop
  subst hk
  have hnb : M.facets_nb = F.rows := by simp [GEO.Mesh.facets_nb, hM]
  rw [hnb]
  have hin : ∀ c ∈ List.range F.rows, ∀ s : GEO.Mesh,
      Stmt.forEach (fun lv => to_geogram_mesh_facet_corner F c lv) (List.range F.cols) s =
        (none, (List.range F.cols).foldl (fun s lv => s.facets_set_vertex c lv
          (GEO.index_of_int ((F.data.getD c []).getD lv 0))) s) := by
    intro c hc s
    apply Stmt.forEach_run
    intro lv hlv s1
    simp only [to_geogram_mesh_facet_corner,
      Mat.coeff_eq F hF 0 c lv (List.mem_range.mp hc) (List.mem_range.mp hlv)]
  rw [Stmt.forEach_run _ _ _ hin, foldl_facets_set_vertex]
  have hlen : M.facets.length = F.rows := by simp [hM]
  have hrows : ∀ r ∈ M.facets, r.length = F.cols := by
    intro r hr
    rw [hM] at hr
    rw [(List.mem_replicate.mp hr).2, List.length_replicate]
  have hfill := foldl_fill2_eq
    (fun c lv => GEO.index_of_int ((F.data.getD c []).getD lv 0)) F.cols M.facets hrows
  rw [hlen] at hfill
  rw [hfill, table_of_index_matrix F hF]

/-- Corner loop of `to_geogram_mesh` over the cells. -/
theorem cell_loop_eq (T : Mat Int) (hT : T.WF) (k : Nat) (hk : k = T.cols) (M : GEO.Mesh)
    (hM : M.cells = List.replicate T.rows (List.replicate k 0)) :
    to_geogram_mesh_cell_loop T M =
      (none, { M with cells := T.data.map (List.map GEO.index_of_int) }) := by
  unfold to_geogram_mesh_cell_loop
  subst hk
  have hnb : M.cells_nb = T.rows := by simp [GEO.Mesh.cells_nb, hM]
  rw [hnb]
  have hin : ∀ c ∈ List.range T.rows, ∀ s : GEO.Mesh,
      Stmt.forEach (fun lv => to_geogram_mesh_cell_corner T c lv) (List.range T.cols) s =
        (none, (List.range T.cols).foldl (fun s lv => s.cells_set_vertex c lv
          (GEO.index_of_int ((T.data.getD c []).getD lv 0))) s) := by
    intro c hc s
    apply Stmt.forEach_run
    intro lv hlv s1
    simp only [to_geogram_mesh_cell_corner,
      Mat.coeff_eq T hT 0 c lv (List.mem_range.mp hc) (List.mem_range.mp hlv)]
  rw [Stmt.forEach_run _ _ _ hin, foldl_cells_set_vertex]
  have hlen : M.cells.length = T.rows := by simp [hM]
  have hrows : ∀ r ∈ M.cells, r.length = T.cols := by
    intro r hr
    rw [hM] at hr
    rw [(List.mem_replicate.mp hr).2, List.length_replicate]
  have hfill := foldl_fill2_eq
    (fun c lv => GEO.index_of_int ((T.data.getD c []).getD lv 0)) T.cols M.cells hrows
  rw [hlen] at hfill
  rw [hfill, table_of_index_matrix T hT]

/-- Vertex phase of `to_geogram_mesh` (lines 26-34): the mesh is emptied and
holds one kernel point per row of `V`. -/
theorem vertex_loop_eq (V : Mat ℚ) (hV : V.WF) (hc : 2 ≤ V.cols) (M0 : GEO.Mesh) :
    to_geogram_mesh_vertex_loop V (M0.clear.create_vertices V.rows) =
      (none, ⟨V.data.map (pointOfRow V.cols), [], []⟩) := by
  unfold to_geogram_mesh_vertex_loop
  have hnb : (M0.clear.create_vertices V.rows).vertices_nb = V.rows := by
    simp [GEO.Mesh.vertices_nb, GEO.Mesh.create_vertices, GEO.Mesh.clear]
  rw [hnb]
  have hbody : ∀ i ∈ List.range V.rows, ∀ s : GEO.Mesh, to_geogram_mesh_point V i s =
      (none, { s with vertices := s.vertices.set i (pointOfRow V.cols (V.data.getD i [])) }) :=
    fun i hi s => to_geogram_mesh_point_eq V hV hc i (List.mem_range.mp hi) s
  rw [Stmt.forEach_run _ _ _ hbody, foldl_vertices_set]
  have hlen : (M0.clear.create_vertices V.rows).vertices.length = V.rows := hnb
  have hfill := foldl_set_range_eq (fun i => pointOfRow V.cols (V.data.getD i []))
    (M0.clear.create_vertices V.rows).vertices
  rw [hlen] at hfill
  rw [hfill]
  have hmap := map_range_getD (pointOfRow V.cols) [] V.data
  rw [Mat.rows, hmap]
  rfl

/-- Closed form of `to_geogram_mesh(V, F, M)`: the previous content of `M` is
dropped, the vertices are always written, and the facets are written when the
face arity is 3 or 4. -/
theorem to_geogram_mesh_eq (V : Mat ℚ) (F : Mat Int) (M0 : GEO.Mesh)
    (hV : V.WF) (hc : 2 ≤ V.cols) (hF : F.WF) :
    to_geogram_mesh V F M0 =
      if F.cols = 3 ∨ F.cols = 4 then
        (none, ⟨V.data.map (pointOfRow V.cols), F.data.map (List.map GEO.index_of_int), []⟩)
      else
        (some (Failure.structural "Mesh faces not supported"),
          ⟨V.data.map (pointOfRow V.cols), [], []⟩) := by
  unfold to_geogram_mesh
  rw [Stmt.seq_run, Stmt.seq_run]
  rw [Stmt.seq_of_ok _ _ _ _ (vertex_loop_eq V hV hc M0)]
  by_cases h3 : F.cols = 3
  · rw [if_pos h3, Stmt.seq_run, if_pos (Or.inl h3)]
    rw [Stmt.seq_of_ok _ _ _ _ (facet_loop_eq F hF 3 h3.symm _ rfl)]
    rfl
  · by_cases h4 : F.cols = 4
    · rw [if_neg h3, if_pos h4, Stmt.seq_run, if_pos (Or.inr h4)]
      rw [Stmt.seq_of_ok _ _ _ _ (facet_loop_eq F hF 4 h4.symm _ rfl)]
      rfl
    · rw [if_neg h3, if_neg h4, if_neg (by tauto)]
      rfl

/-- Closed form of `to_geogram_mesh(V, F, T, M)`. -/
theorem to_geogram_mesh_cells_eq (V : Mat ℚ) (F T : Mat Int) (M0 : GEO.Mesh)
    (hV : V.WF) (hc : 2 ≤ V.cols) (hF : F.WF) (hT : T.WF) :
    to_geogram_mesh_cells V F T M0 =
      if F.cols = 3 ∨ F.cols = 4 then
        if T.cols = 4 then
          (none, ⟨V.data.map (pointOfRow V.cols), F.data.map (List.map GEO.index_of_int),
            T.data.map (List.map GEO.index_of_int)⟩)
        else if T.rows ≠ 0 then
          (some (Failure.structural "Mesh cells not supported"),
            ⟨V.data.map (pointOfRow V.cols), F.data.map (List.map GEO.index_of_int), []⟩)
        else
          (none, ⟨V.data.map (pointOfRow V.cols), F.data.map (List.map GEO.index_of_int), []⟩)
      else
        (some (Failure.structural "Mesh faces not supported"),
          ⟨V.data.map (pointOfRow V.cols), [], []⟩) := by
  unfold to_geogram_mesh_cells
  have h := to_geogram_mesh_eq V F M0 hV hc hF
  by_cases hf : F.cols = 3 ∨ F.cols = 4
  · rw [if_pos hf] at h
    rw [if_pos hf, Stmt.seq_of_ok _ _ _ _ h]
    by_cases h4 : T.cols = 4
    · rw [if_pos h4, Stmt.seq_run, if_pos h4]
      rw [Stmt.seq_of_ok _ _ _ _ (cell_loop_eq T hT 4 h4.symm _ rfl)]
      rfl
    · by_cases h0 : T.rows ≠ 0
      · rw [if_neg h4, if_pos h0, if_neg h4, if_pos h0]
        rfl
      · rw [if_neg h4, if_neg h0, Stmt.seq_run, if_neg h4, if_neg h0]
        have hr : T.rows = 0 := by omega
        have hd : T.data = [] := List.length_eq_zero.mp hr
        simp [Stmt.seq, Stmt.run, Stmt.forEach, to_geogram_mesh_cell_loop, GEO.Mesh.cells_nb,
          GEO.Mesh.cells_connect, hd]
  · rw [if_neg hf] at h
    rw [if_neg hf, Stmt.seq_of_fail _ _ _ _ _ h]

theorem foldl_setCoeff {α : Type} (g : Nat → Nat → α) (ks is : List Nat) (m : Mat α) :
    is.foldl (fun m c => ks.foldl (fun m lv => m.setCoeff c lv (g c lv)) m) m =
      ⟨m.cols, is.foldl (fun L c => ks.foldl (fun L lv => set2 L c lv (g c lv)) L) m.data⟩ := by
  have inner : ∀ (c : Nat) (ks : List Nat) (m : Mat α),
      ks.foldl (fun m lv => m.setCoeff c lv (g c lv)) m =
        ⟨m.cols, ks.foldl (fun L lv => set2 L c lv (g c lv)) m.data⟩ := by
    intro c ks
    induction ks with
    | nil => intro m; rfl
    | cons lv ks ih => intro m; rw [List.foldl_cons, ih, List.foldl_cons]; rfl
  induction is generalizing m with
  | nil => rfl
  | cons c rest ih => rw [List.foldl_cons, ih, List.foldl_cons, inner]

/-- The fill loops that follow `m.resize(n, k)` produce the `n x k` table of
the written values. -/
theorem resize_fill_eq {α : Type} [Zero α] (g : Nat → Nat → α) (n k : Nat) :
    (List.range n).foldl
        (fun m c => (List.range k).foldl (fun m lv => m.setCoeff c lv (g c lv)) m)
        (Mat.resize n k) =
      ⟨k, (List.range n).map fun c => (List.range k).map (g c)⟩ := by
  rw [foldl_setCoeff]
  have hrows : ∀ r ∈ (Mat.resize n k : Mat α).data, r.length = k := by
    intro r hr
    simp only [Mat.resize] at hr
    rw [(List.mem_replicate.mp hr).2, List.length_replicate]
  have hlen : (Mat.resize n k : Mat α).data.length = n := by simp [Mat.resize]
  have hfill := foldl_fill2_eq g k (Mat.resize n k : Mat α).data hrows
  rw [hlen] at hfill
  rw [hfill]
  rfl

/-- Closed form of `from_geogram_mesh`: when both `assert`s hold the outputs
are the kernel containers read in creation order. -/
theorem from_geogram_mesh_eq (M : GEO.Mesh) :
    from_geogram_mesh M =
      if M.facets_are_simplices then
        if M.cells_are_simplices then
          Except.ok (⟨3, M.vertices.map rowOfPoint⟩,
            ⟨3, M.facets.map (List.map GEO.int_of_index)⟩,
            ⟨4, M.cells.map (List.map GEO.int_of_index)⟩)
        else Except.error Failure.assertion
      else Except.error Failure.assertion := by
  unfold from_geogram_mesh
  by_cases hf : M.facets_are_simplices = true
  · by_cases hcs : M.cells_are_simplices = true
    · simp only [hf, hcs, if_true]
      have hV : (List.range M.vertices_nb).foldl
          (fun (V : Mat ℚ) i => V.setRow3 i (M.point i).x (M.point i).y (M.point i).z)
          (Mat.resize M.vertices_nb 3) = ⟨3, M.vertices.map rowOfPoint⟩ := by
        have h := resize_fill_eq (fun i lv => (rowOfPoint (M.point i)).getD lv 0) M.vertices_nb 3
        have hstep : (fun (m : Mat ℚ) c => (List.range 3).foldl
            (fun m lv => m.setCoeff c lv ((rowOfPoint (M.point c)).getD lv 0)) m) =
            fun (V : Mat ℚ) i => V.setRow3 i (M.point i).x (M.point i).y (M.point i).z := by
          funext m c
          simp [List.range_succ, Mat.setRow3, rowOfPoint]
        rw [hstep] at h
        rw [h]
        have hrow : (fun c => (List.range 3).map fun lv => (rowOfPoint (M.point c)).getD lv 0) =
            fun c => rowOfPoint (M.vertices.getD c ⟨0, 0, 0⟩) := by
          funext c
          simp [List.range_succ, rowOfPoint, GEO.Mesh.point]
        rw [hrow, GEO.Mesh.vertices_nb, map_range_getD]
      have hF : (List.range M.facets_nb).foldl
          (fun (F : Mat Int) c => (List.range 3).foldl
            (fun F lv => F.setCoeff c lv (GEO.int_of_index (M.facets_vertex c lv))) F)
          (Mat.resize M.facets_nb 3) = ⟨3, M.facets.map (List.map GEO.int_of_index)⟩ := by
        rw [resize_fill_eq (fun c lv => GEO.int_of_index (M.facets_vertex c lv))]
        have hrows : ∀ r ∈ M.facets, r.length = 3 := by
          intro r hr
          have := (List.all_eq_true.mp hf) r hr
          simpa using this
        have h := table_eq_map GEO.int_of_index 0 3 M.facets hrows
        simp only [GEO.Mesh.facets_nb, GEO.Mesh.facets_vertex, h]
      have hT : (List.range M.cells_nb).foldl
          (fun (T : Mat Int) c => (List.range 4).foldl
            (fun T lv => T.setCoeff c lv (GEO.int_of_index (M.cells_vertex c lv))) T)
          (Mat.resize M.cells_nb 4) = ⟨4, M.cells.map (List.map GEO.int_of_index)⟩ := by
        rw [resize_fill_eq (fun c lv => GEO.int_of_index (M.cells_vertex c lv))]
        have hrows : ∀ r ∈ M.cells, r.length = 4 := by
          intro r hr
          have := (List.all_eq_true.mp hcs) r hr
          simpa using this
        have h := table_eq_map GEO.int_of_index 0 4 M.cells hrows
        simp only [GEO.Mesh.cells_nb, GEO.Mesh.cells_vertex, h]
      rw [hV, hF, hT]
    · simp only [hf, hcs, if_true]
      simp
  · simp only [hf]
    simp

theorem int_of_index_of_int (x : Int) (h1 : -2 ^ 31 ≤ x) (h2 : x < 2 ^ 31) :
    GEO.int_of_index (GEO.index_of_int x) = x := by
  unfold GEO.int_of_index GEO.index_of_int
  norm_num at h1 h2 ⊢
  split_ifs with h <;> omega

theorem map_int_of_index_of_int (F : Mat Int) (hF : F.Int32) :
    (F.data.map (List.map GEO.index_of_int)).map (List.map GEO.int_of_index) = F.data := by
  rw [List.map_map]
  conv_rhs => rw [← List.map_id F.data]
  apply List.map_congr_left
  intro r hr
  simp only [Function.comp, List.map_map, id]
  conv_rhs => rw [← List.map_id r]
  apply List.map_congr_left
  intro x hx
  exact int_of_index_of_int x (hF r hr x hx).1 (hF r hr x hx).2

theorem map_rowOfPoint_pointOfRow (V : Mat ℚ) (hV : V.WF) (hc : V.cols = 3) :
    (V.data.map (pointOfRow V.cols)).map rowOfPoint = V.data := by
  rw [List.map_map]
  conv_rhs => rw [← List.map_id V.data]
  apply List.map_congr_left
  intro r hr
  have hlen : r.length = 3 := by rw [hV r hr, hc]
  match r, hlen with
  | [a, b, c], _ => simp [pointOfRow, rowOfPoint, hc]

theorem simplices_of_map (k : Nat) (F : Mat Int) (hF : F.WF) (hk : F.cols = k) :
    ∀ r ∈ F.data.map (List.map GEO.index_of_int), r.length = k := by
  intro r hr
  obtain ⟨r0, hr0, rfl⟩ := List.mem_map.mp hr
  rw [List.length_map, hF r0 hr0, hk]

end Adapter

/-! ## Claims on the mesh representation adapter -/

/-- C1. Round trip of the adapter: for a coordinate matrix `V` of shape N x 3,
triangles `F` of shape M x 3 and tetrahedra `T` of shape K x 4 (entries C
`int`s, `M = 0` and `K = 0` included), `to_geogram_mesh(V, F, T, M)` succeeds
and `from_geogram_mesh` applied to the kernel mesh it built returns exactly
`V`, `F`, `T`: same shapes, same row order, same values. -/
theorem to_from_geogram_mesh_roundtrip (V : Mat ℚ) (F T : Mat Int) (M0 : GEO.Mesh)
    (hV : V.WF) (hVc : V.cols = 3) (hF : F.WF) (hFc : F.cols = 3)
    (hT : T.WF) (hTc : T.cols = 4) (hFi : F.Int32) (hTi : T.Int32) :
    (to_geogram_mesh_cells V F T M0).1 = none ∧
      from_geogram_mesh (to_geogram_mesh_cells V F T M0).2 = Except.ok (V, F, T) := by
  rw [to_geogram_mesh_cells_eq V F T M0 hV (by omega) hF hT, if_pos (Or.inl hFc), if_pos hTc]
  refine ⟨rfl, ?_⟩
  rw [from_geogram_mesh_eq]
  have h3 : GEO.Mesh.facets_are_simplices
      ⟨V.data.map (pointOfRow V.cols), F.data.map (List.map GEO.index_of_int),
        T.data.map (List.map GEO.index_of_int)⟩ = true := by
    simp only [GEO.Mesh.facets_are_simplices, List.all_eq_true]
    intro r hr
    simpa using simplices_of_map 3 F hF hFc r hr
  have h4 : GEO.Mesh.cells_are_simplices
      ⟨V.data.map (pointOfRow V.cols), F.data.map (List.map GEO.index_of_int),
        T.data.map (List.map GEO.index_of_int)⟩ = true := by
    simp only [GEO.Mesh.cells_are_simplices, List.all_eq_true]
    intro r hr
    simpa using simplices_of_map 4 T hT hTc r hr
  rw [if_pos h3, if_pos h4]
  simp only [map_rowOfPoint_pointOfRow V hV hVc, map_int_of_index_of_int F hFi,
    map_int_of_index_of_int T hTi]
  have eV : (⟨3, V.data⟩ : Mat ℚ) = V := by rw [← hVc]
  have eF : (⟨3, F.data⟩ : Mat Int) = F := by rw [← hFc]
  have eT : (⟨4, T.data⟩ : Mat Int) = T := by rw [← hTc]
  rw [eV, eF, eT]

/-- Witness of C1: the 9 box template points with the 12 template tetrahedra
(zero-based) and no faces. -/
theorem to_from_geogram_mesh_roundtrip_box :
    (to_geogram_mesh_cells box_template_V no_triangles (box_template_T.subScalar 1)
        empty_mesh).1 = none ∧
      from_geogram_mesh (to_geogram_mesh_cells box_template_V no_triangles
        (box_template_T.subScalar 1) empty_mesh).2 =
        Except.ok (box_template_V, no_triangles, box_template_T.subScalar 1) :=
  to_from_geogram_mesh_roundtrip box_template_V no_triangles (box_template_T.subScalar 1)
    empty_mesh (by decide) rfl (by decide) rfl (by decide) rfl (by decide) (by decide)

/-- C2. Arity rejection as an if-and-only-if, for a coordinate matrix of shape
N x 2 or N x 3: `to_geogram_mesh(V, F, T, M)` fails with a structural error
exactly when the face arity is neither 3 nor 4, or the cell list is non-empty
and its arity is not 4, and it succeeds in every other case; the form
`to_geogram_mesh(V, F, M)` fails with a structural error exactly when the face
arity is neither 3 nor 4 (whatever the number of rows of `F`) and succeeds
otherwise. -/
theorem to_geogram_mesh_rejects_iff (V : Mat ℚ) (F T : Mat Int) (M0 : GEO.Mesh)
    (hV : V.WF) (hVc : V.cols = 2 ∨ V.cols = 3) (hF : F.WF) (hT : T.WF) :
    ((∃ msg, (to_geogram_mesh_cells V F T M0).1 = some (Failure.structural msg)) ↔
        ((F.cols ≠ 3 ∧ F.cols ≠ 4) ∨ (T.rows ≠ 0 ∧ T.cols ≠ 4))) ∧
      ((to_geogram_mesh_cells V F T M0).1 = none ↔
        ((F.cols = 3 ∨ F.cols = 4) ∧ (T.cols = 4 ∨ T.rows = 0))) ∧
      ((∃ msg, (to_geogram_mesh V F M0).1 = some (Failure.structural msg)) ↔
        (F.cols ≠ 3 ∧ F.cols ≠ 4)) ∧
      ((to_geogram_mesh V F M0).1 = none ↔ (F.cols = 3 ∨ F.cols = 4)) := by
  have hc : 2 ≤ V.cols := by omega
  rw [to_geogram_mesh_cells_eq V F T M0 hV hc hF hT, to_geogram_mesh_eq V F M0 hV hc hF]
  by_cases hf : F.cols = 3 ∨ F.cols = 4
  · have hf1 : ¬ (F.cols ≠ 3 ∧ F.cols ≠ 4) := by omega
    by_cases h4 : T.cols = 4
    · simp [hf, hf1, h4]
    · by_cases h0 : T.rows ≠ 0
      · simp [hf, hf1, h4, h0]
      · simp [hf, hf1, h4, h0]
        omega
  · have hf1 : F.cols ≠ 3 ∧ F.cols ≠ 4 := by omega
    simp [hf, hf1]

/-- Witness of C2: a single point with a face list of arity 5 and no rows. -/
theorem to_geogram_mesh_rejects_iff_pentagons :
    ((∃ msg, (to_geogram_mesh_cells single_point_V no_pentagons no_tets empty_mesh).1 =
          some (Failure.structural msg)) ↔
        ((no_pentagons.cols ≠ 3 ∧ no_pentagons.cols ≠ 4) ∨
          (no_tets.rows ≠ 0 ∧ no_tets.cols ≠ 4))) ∧
      ((to_geogram_mesh_cells single_point_V no_pentagons no_tets empty_mesh).1 = none ↔
        ((no_pentagons.cols = 3 ∨ no_pentagons.cols = 4) ∧
          (no_tets.cols = 4 ∨ no_tets.rows = 0))) ∧
      ((∃ msg, (to_geogram_mesh single_point_V no_pentagons empty_mesh).1 =
          some (Failure.structural msg)) ↔
        (no_pentagons.cols ≠ 3 ∧ no_pentagons.cols ≠ 4)) ∧
      ((to_geogram_mesh single_point_V no_pentagons empty_mesh).1 = none ↔
        (no_pentagons.cols = 3 ∨ no_pentagons.cols = 4)) :=
  to_geogram_mesh_rejects_iff single_point_V no_pentagons no_tets empty_mesh
    (by decide) (Or.inr rfl) (by decide) (by decide)

/-- Counterexample to C3 as stated: a rejected face arity leaves the vertex of
`V` in `M`, and a rejected cell arity leaves the vertices of `V` and the
facets of `F` in `M`. -/
theorem to_geogram_mesh_rejection_keeps_vertices :
    ((to_geogram_mesh_cells single_point_V no_pentagons no_tets empty_mesh).1 =
        some (Failure.structural "Mesh faces not supported") ∧
      (to_geogram_mesh_cells single_point_V no_pentagons no_tets empty_mesh).2.vertices =
        [⟨0, 0, 0⟩]) ∧
    ((to_geogram_mesh_cells unit_square_V unit_square_triangles one_arity5_cell empty_mesh).1 =
        some (Failure.structural "Mesh cells not supported") ∧
      (to_geogram_mesh_cells unit_square_V unit_square_triangles one_arity5_cell
        empty_mesh).2.vertices.length = 4 ∧
      (to_geogram_mesh_cells unit_square_V unit_square_triangles one_arity5_cell
        empty_mesh).2.facets = [[0, 1, 2], [0, 2, 3]]) := by
  rw [to_geogram_mesh_cells_eq single_point_V no_pentagons no_tets empty_mesh
      (by decide) (by decide) (by decide) (by decide),
    to_geogram_mesh_cells_eq unit_square_V unit_square_triangles one_arity5_cell empty_mesh
      (by decide) (by decide) (by decide) (by decide)]
  refine ⟨⟨by decide, ?_⟩, by decide, by decide, by decide⟩
  simp [no_pentagons, single_point_V, pointOfRow]

/-- C3, amended. When `to_geogram_mesh` fails with a structural error (on a
coordinate matrix of shape N x 2 or N x 3), nothing of the previous content of
`M` is left and `M` holds no cells, but `M` does hold the N vertices of `V`;
it holds no facets when the face arity was rejected, and the facets of `F`
when the cell list was rejected. -/
theorem to_geogram_mesh_state_on_rejection (V : Mat ℚ) (F T : Mat Int) (M0 : GEO.Mesh)
    (hV : V.WF) (hVc : V.cols = 2 ∨ V.cols = 3) (hF : F.WF) (hT : T.WF) :
    (∀ msg, (to_geogram_mesh V F M0).1 = some (Failure.structural msg) →
        (to_geogram_mesh V F M0).2 = ⟨V.data.map (pointOfRow V.cols), [], []⟩) ∧
      (∀ msg, (to_geogram_mesh_cells V F T M0).1 = some (Failure.structural msg) →
        (to_geogram_mesh_cells V F T M0).2.vertices = V.data.map (pointOfRow V.cols) ∧
        (to_geogram_mesh_cells V F T M0).2.cells = [] ∧
        ((F.cols ≠ 3 ∧ F.cols ≠ 4) → (to_geogram_mesh_cells V F T M0).2.facets = []) ∧
        ((F.cols = 3 ∨ F.cols = 4) →
          (to_geogram_mesh_cells V F T M0).2.facets = F.data.map (List.map GEO.index_of_int))) := by
  have hc : 2 ≤ V.cols := by omega
  rw [to_geogram_mesh_cells_eq V F T M0 hV hc hF hT, to_geogram_mesh_eq V F M0 hV hc hF]
  by_cases hf : F.cols = 3 ∨ F.cols = 4
  · have hf1 : ¬ (F.cols ≠ 3 ∧ F.cols ≠ 4) := by omega
    by_cases h4 : T.cols = 4
    · simp [hf, h4]
    · by_cases h0 : T.rows ≠ 0
      · simp [hf, h4, h0]
        intro a b
        rcases hf with h | h <;> contradiction
      · simp [hf, h4, h0]
  · have hf1 : F.cols ≠ 3 ∧ F.cols ≠ 4 := by omega
    simp [hf]

/-- Witness of C3, amended: a single point with a face list of arity 5
(rejected faces), and the unit square with two triangles and one cell of
arity 5 (rejected cells). -/
theorem to_geogram_mesh_state_on_rejection_square :
    (to_geogram_mesh single_point_V no_pentagons empty_mesh).2 =
        ⟨single_point_V.data.map (pointOfRow single_point_V.cols), [], []⟩ ∧
      (to_geogram_mesh_cells unit_square_V unit_square_triangles one_arity5_cell
          empty_mesh).2.vertices = unit_square_V.data.map (pointOfRow unit_square_V.cols) ∧
      (to_geogram_mesh_cells unit_square_V unit_square_triangles one_arity5_cell
          empty_mesh).2.cells = [] ∧
      (to_geogram_mesh_cells unit_square_V unit_square_triangles one_arity5_cell
          empty_mesh).2.facets = unit_square_triangles.data.map (List.map GEO.index_of_int) :=
  have h1 := (to_geogram_mesh_state_on_rejection single_point_V no_pentagons no_tets
    empty_mesh (by decide) (Or.inr rfl) (by decide) (by decide)).1
    "Mesh faces not supported" rfl
  have h2 := (to_geogram_mesh_state_on_rejection unit_square_V unit_square_triangles
    one_arity5_cell empty_mesh (by decide) (Or.inr rfl) (by decide) (by decide)).2
    "Mesh cells not supported" rfl
  ⟨h1, h2.1, h2.2.1, h2.2.2.2 (Or.inl rfl)⟩

/-- C7. Extraction precondition: `from_geogram_mesh(M)` succeeds if and only
if every facet of `M` is a triangle and every cell of `M` is a tetrahedron;
then `F` has exactly 3 columns and one row per facet and `T` has exactly 4
columns and one row per cell; otherwise the call fails its precondition. In
particular it fails its precondition on the kernel mesh that
`to_geogram_mesh` builds (and accepts) from a face list of arity 4 with at
least one row: the quads are not returned cut to their first 3 vertices. -/
theorem from_geogram_mesh_succeeds_iff (M M0 : GEO.Mesh) (V : Mat ℚ) (F T : Mat Int) :
    ((∃ r, from_geogram_mesh M = Except.ok r) ↔
        ((∀ f ∈ M.facets, f.length = 3) ∧ (∀ c ∈ M.cells, c.length = 4))) ∧
      (∀ V1 F1 T1, from_geogram_mesh M = Except.ok (V1, F1, T1) →
        (F1.cols = 3 ∧ F1.WF ∧ F1.rows = M.facets_nb) ∧
        (T1.cols = 4 ∧ T1.WF ∧ T1.rows = M.cells_nb)) ∧
      (¬ ((∀ f ∈ M.facets, f.length = 3) ∧ (∀ c ∈ M.cells, c.length = 4)) →
        from_geogram_mesh M = Except.error Failure.assertion) ∧
      (V.WF → (V.cols = 2 ∨ V.cols = 3) → F.WF → F.cols = 4 → 0 < F.rows →
        (to_geogram_mesh V F M0).1 = none ∧
        from_geogram_mesh (to_geogram_mesh V F M0).2 = Except.error Failure.assertion ∧
        (T.WF → (T.cols = 4 ∨ T.rows = 0) →
          (to_geogram_mesh_cells V F T M0).1 = none ∧
          from_geogram_mesh (to_geogram_mesh_cells V F T M0).2 =
            Except.error Failure.assertion)) := by
  have hfs : M.facets_are_simplices = true ↔ ∀ f ∈ M.facets, f.length = 3 := by
    simp [GEO.Mesh.facets_are_simplices, List.all_eq_true]
  have hcs : M.cells_are_simplices = true ↔ ∀ c ∈ M.cells, c.length = 4 := by
    simp [GEO.Mesh.cells_are_simplices, List.all_eq_true]
  refine ⟨?_, ?_, ?_, ?_⟩
  · rw [from_geogram_mesh_eq, ← hfs, ← hcs]
    by_cases h1 : M.facets_are_simplices = true
    · by_cases h2 : M.cells_are_simplices = true
      · simp [h1, h2]
      · simp [h1, h2]
    · simp [h1]
  · intro V1 F1 T1 h
    rw [from_geogram_mesh_eq] at h
    by_cases h1 : M.facets_are_simplices = true
    · by_cases h2 : M.cells_are_simplices = true
      · rw [if_pos h1, if_pos h2] at h
        injection h with h
        injection h with hV1 h
        injection h with hF1 hT1
        subst hF1 hT1
        refine ⟨⟨rfl, ?_, ?_⟩, rfl, ?_, ?_⟩
        · intro r hr
          obtain ⟨r0, hr0, rfl⟩ := List.mem_map.mp hr
          rw [List.length_map]
          exact hfs.mp h1 r0 hr0
        · simp [Mat.rows, GEO.Mesh.facets_nb]
        · intro r hr
          obtain ⟨r0, hr0, rfl⟩ := List.mem_map.mp hr
          rw [List.length_map]
          exact hcs.mp h2 r0 hr0
        · simp [Mat.rows, GEO.Mesh.cells_nb]
      · rw [if_pos h1, if_neg h2] at h
        exact absurd h (by simp)
    · rw [if_neg h1] at h
      exact absurd h (by simp)
  · intro hn
    rw [from_geogram_mesh_eq]
    by_cases h1 : M.facets_are_simplices = true
    · by_cases h2 : M.cells_are_simplices = true
      · exact absurd ⟨hfs.mp h1, hcs.mp h2⟩ hn
      · rw [if_pos h1, if_neg h2]
    · rw [if_neg h1]
  · intro hV hVc hF hFc hrows
    have hc : 2 ≤ V.cols := by omega
    have hquad : ∀ cells : List (List Nat), GEO.Mesh.facets_are_simplices
        ⟨V.data.map (pointOfRow V.cols), F.data.map (List.map GEO.index_of_int), cells⟩ =
          false := by
      intro cells
      have hne : F.data ≠ [] := by
        intro h
        rw [Mat.rows, h] at hrows
        exact absurd hrows (by decide)
      obtain ⟨r, rs, hd⟩ := List.exists_cons_of_ne_nil hne
      have hr : r.length = 4 := by
        rw [hF r (by rw [hd]; exact List.mem_cons_self _ _), hFc]
      simp [GEO.Mesh.facets_are_simplices, hd, hr]
    refine ⟨?_, ?_, ?_⟩
    · rw [to_geogram_mesh_eq V F M0 hV hc hF, if_pos (Or.inr hFc)]
    · rw [to_geogram_mesh_eq V F M0 hV hc hF, if_pos (Or.inr hFc), from_geogram_mesh_eq,
        hquad]
      rfl
    · intro hT hTc
      rw [to_geogram_mesh_cells_eq V F T M0 hV hc hF hT, if_pos (Or.inr hFc)]
      by_cases h4 : T.cols = 4
      · rw [if_pos h4, from_geogram_mesh_eq, hquad]
        exact ⟨rfl, rfl⟩
      · have h0 : ¬ T.rows ≠ 0 := by omega
        rw [if_neg h4, if_neg h0, from_geogram_mesh_eq, hquad]
        exact ⟨rfl, rfl⟩

/-- Witness of C7: the unit square as one quad is accepted by
`to_geogram_mesh` and rejected by `from_geogram_mesh`, while the same square
as two triangles is read back with 3 columns. -/
theorem from_geogram_mesh_succeeds_iff_square :
    (to_geogram_mesh unit_square_V unit_square_quad empty_mesh).1 = none ∧
      from_geogram_mesh (to_geogram_mesh unit_square_V unit_square_quad empty_mesh).2 =
        Except.error Failure.assertion ∧
      (∃ r, from_geogram_mesh
        (to_geogram_mesh unit_square_V unit_square_triangles empty_mesh).2 = Except.ok r) :=
  have h := (from_geogram_mesh_succeeds_iff empty_mesh empty_mesh unit_square_V
    unit_square_quad no_tets).2.2.2 (by decide) (Or.inr rfl) (by decide) rfl (by decide)
  have h3 := (from_geogram_mesh_succeeds_iff
    (to_geogram_mesh unit_square_V unit_square_triangles empty_mesh).2 empty_mesh
    unit_square_V unit_square_quad no_tets).1.mpr (by decide)
  ⟨h.1, h.2.1, h3⟩

/-! ## Claims on the box domain -/

/-- Closed form of `create_box_mesh`: it always succeeds, and the mesh holds
the 8 corners of the padded cuboid in binary order, the interior vertex, no
facets and the 12 template cells. -/
theorem create_box_mesh_eq (pmin pmax : RowVector3d) (padding : ℚ) (M0 : GEO.Mesh) :
    create_box_mesh pmin pmax padding M0 =
      (none, ⟨(List.range 8).map (box_corner (pmin.subScalar padding) (pmax.addScalar padding))
          ++ [box_interior (pmin.subScalar padding) (pmax.addScalar padding)], [], box_cells⟩) := by
  unfold create_box_mesh
  rw [to_geogram_mesh_cells_eq _ _ _ M0 (by simp [Mat.WF, rowwise_blend, box_template_V])
    (by simp [rowwise_blend, box_template_V]) (by decide) (by decide)]
  simp [rowwise_blend, box_template_V, box_template_T, Mat.subScalar, pointOfRow,
    RowVector3d.coeff, box_corner, box_interior, box_cells, GEO.index_of_int, List.range_succ]

/-- The 9 vertices of the box domain, written out. -/
theorem box_vertices_eq (lo hi : RowVector3d) :
    (List.range 8).map (box_corner lo hi) ++ [box_interior lo hi] =
      [⟨lo.c0, lo.c1, lo.c2⟩, ⟨lo.c0, lo.c1, hi.c2⟩, ⟨lo.c0, hi.c1, lo.c2⟩, ⟨lo.c0, hi.c1, hi.c2⟩,
       ⟨hi.c0, lo.c1, lo.c2⟩, ⟨hi.c0, lo.c1, hi.c2⟩, ⟨hi.c0, hi.c1, lo.c2⟩, ⟨hi.c0, hi.c1, hi.c2⟩,
       box_interior lo hi] := rfl

/-- Signed volume of each cell of the box domain: a fixed positive share of
the cuboid volume. -/
theorem box_cell_volumes (lo hi : RowVector3d) :
    box_cells.map (cell_volume
        ⟨(List.range 8).map (box_corner lo hi) ++ [box_interior lo hi], [], box_cells⟩) =
      box_cell_weights.map fun w =>
        w / 6 * ((hi.c0 - lo.c0) * (hi.c1 - lo.c1) * (hi.c2 - lo.c2)) := by
  rw [box_vertices_eq]
  simp only [box_cells, box_cell_weights, List.map_cons, List.map_nil, cell_volume,
    GEO.Mesh.point, List.getD_cons_succ, List.getD_cons_zero, signed_volume, box_interior,
    List.cons.injEq, and_true]
  refine ⟨?_, ?_, ?_, ?_, ?_, ?_, ?_, ?_, ?_, ?_, ?_, ?_⟩ <;> ring

/-- C10. The box domain is a valid, non-degenerate tessellation: when
`pmin - padding < pmax + padding` on each axis, `create_box_mesh` succeeds and
the mesh has exactly 9 vertices and 12 tetrahedra (and no facets), every
tetrahedron has 4 corner indices, each `< 9`, the first 8 vertices are the
corners of the cuboid `[pmin - padding, pmax + padding]`, the 9th lies strictly
inside it, each of the 12 tetrahedra has strictly positive signed volume, and
the 12 volumes sum to the volume of the cuboid; moreover the 12 tetrahedra are
the fan that joins the 9th vertex to two triangles per face of the cuboid,
the two triangles of a face meeting along a diagonal. -/
theorem create_box_mesh_tessellation (pmin pmax : RowVector3d) (padding : ℚ) (M0 : GEO.Mesh)
    (h0 : pmin.c0 - padding < pmax.c0 + padding)
    (h1 : pmin.c1 - padding < pmax.c1 + padding)
    (h2 : pmin.c2 - padding < pmax.c2 + padding) :
    (create_box_mesh pmin pmax padding M0).1 = none ∧
      (create_box_mesh pmin pmax padding M0).2.vertices_nb = 9 ∧
      (create_box_mesh pmin pmax padding M0).2.cells_nb = 12 ∧
      (create_box_mesh pmin pmax padding M0).2.facets_nb = 0 ∧
      (∀ c ∈ (create_box_mesh pmin pmax padding M0).2.cells, c.length = 4 ∧ ∀ v ∈ c, v < 9) ∧
      (∀ k, k < 8 → (create_box_mesh pmin pmax padding M0).2.point k =
        box_corner (pmin.subScalar padding) (pmax.addScalar padding) k) ∧
      (pmin.c0 - padding < ((create_box_mesh pmin pmax padding M0).2.point 8).x ∧
        ((create_box_mesh pmin pmax padding M0).2.point 8).x < pmax.c0 + padding ∧
        pmin.c1 - padding < ((create_box_mesh pmin pmax padding M0).2.point 8).y ∧
        ((create_box_mesh pmin pmax padding M0).2.point 8).y < pmax.c1 + padding ∧
        pmin.c2 - padding < ((create_box_mesh pmin pmax padding M0).2.point 8).z ∧
        ((create_box_mesh pmin pmax padding M0).2.point 8).z < pmax.c2 + padding) ∧
      (∀ c ∈ (create_box_mesh pmin pmax padding M0).2.cells,
        0 < cell_volume (create_box_mesh pmin pmax padding M0).2 c) ∧
      (((create_box_mesh pmin pmax padding M0).2.cells.map
          (cell_volume (create_box_mesh pmin pmax padding M0).2)).sum =
        ((pmax.c0 + padding) - (pmin.c0 - padding)) * ((pmax.c1 + padding) - (pmin.c1 - padding))
          * ((pmax.c2 + padding) - (pmin.c2 - padding))) ∧
      is_fan_over_faces (create_box_mesh pmin pmax padding M0).2.cells = true := by
  rw [create_box_mesh_eq]
  have d0 : 0 < (pmax.c0 + padding) - (pmin.c0 - padding) := by linarith
  have d1 : 0 < (pmax.c1 + padding) - (pmin.c1 - padding) := by linarith
  have d2 : 0 < (pmax.c2 + padding) - (pmin.c2 - padding) := by linarith
  have hvol := mul_pos (mul_pos d0 d1) d2
  have hvols := box_cell_volumes (pmin.subScalar padding) (pmax.addScalar padding)
  dsimp only at hvols ⊢
  refine ⟨rfl, rfl, rfl, rfl, ?_, ?_, ?_, ?_, ?_, ?_⟩
  · decide
  · intro k hk
    interval_cases k <;> rfl
  · rw [box_vertices_eq]
    simp only [GEO.Mesh.point, box_interior, RowVector3d.subScalar, RowVector3d.addScalar,
      List.getD_cons_succ, List.getD_cons_zero]
    refine ⟨?_, ?_, ?_, ?_, ?_, ?_⟩ <;> linarith
  · intro c hc
    have hmem := List.mem_map_of_mem (cell_volume
      ⟨(List.range 8).map (box_corner (pmin.subScalar padding) (pmax.addScalar padding)) ++
        [box_interior (pmin.subScalar padding) (pmax.addScalar padding)], [], box_cells⟩) hc
    rw [hvols] at hmem
    obtain ⟨w, hw, hwc⟩ := List.mem_map.mp hmem
    have hwpos : 0 < w := by
      revert w
      simp only [box_cell_weights, List.forall_mem_cons, List.not_mem_nil, false_implies,
        implies_true, and_true]
      norm_num
    rw [← hwc]
    simp only [RowVector3d.subScalar, RowVector3d.addScalar]
    positivity
  · rw [hvols]
    simp only [box_cell_weights, List.map_cons, List.map_nil, List.sum_cons, List.sum_nil,
      RowVector3d.subScalar, RowVector3d.addScalar]
    ring
  · decide

/-- Witness of C10: the unit cube padded by 1/10. -/
theorem create_box_mesh_tessellation_unit_cube :
    (unit_pmin.c0 - 1 / 10 < unit_pmax.c0 + 1 / 10 ∧ unit_pmin.c1 - 1 / 10 < unit_pmax.c1 + 1 / 10 ∧
        unit_pmin.c2 - 1 / 10 < unit_pmax.c2 + 1 / 10) ∧
      (create_box_mesh unit_pmin unit_pmax (1 / 10) empty_mesh).1 = none ∧
      (create_box_mesh unit_pmin unit_pmax (1 / 10) empty_mesh).2.vertices_nb = 9 ∧
      (create_box_mesh unit_pmin unit_pmax (1 / 10) empty_mesh).2.cells_nb = 12 ∧
      (∀ c ∈ (create_box_mesh unit_pmin unit_pmax (1 / 10) empty_mesh).2.cells,
        0 < cell_volume (create_box_mesh unit_pmin unit_pmax (1 / 10) empty_mesh).2 c) ∧
      (((create_box_mesh unit_pmin unit_pmax (1 / 10) empty_mesh).2.cells.map
          (cell_volume (create_box_mesh unit_pmin unit_pmax (1 / 10) empty_mesh).2)).sum =
        ((unit_pmax.c0 + 1 / 10) - (unit_pmin.c0 - 1 / 10)) *
          ((unit_pmax.c1 + 1 / 10) - (unit_pmin.c1 - 1 / 10)) *
          ((unit_pmax.c2 + 1 / 10) - (unit_pmin.c2 - 1 / 10))) ∧
      is_fan_over_faces (create_box_mesh unit_pmin unit_pmax (1 / 10) empty_mesh).2.cells = true :=
  have hyp : unit_pmin.c0 - 1 / 10 < unit_pmax.c0 + 1 / 10 ∧
      unit_pmin.c1 - 1 / 10 < unit_pmax.c1 + 1 / 10 ∧
      unit_pmin.c2 - 1 / 10 < unit_pmax.c2 + 1 / 10 := by
    norm_num [unit_pmin, unit_pmax]
  have h := create_box_mesh_tessellation unit_pmin unit_pmax (1 / 10) empty_mesh
    hyp.1 hyp.2.1 hyp.2.2
  ⟨hyp, h.1, h.2.1, h.2.2.1, h.2.2.2.2.2.2.2.1, h.2.2.2.2.2.2.2.2.1, h.2.2.2.2.2.2.2.2.2⟩

/-! ## The sample set in closed form -/

section Sampler

open GEO

theorem length_copy_n (src : List ℚ) (n : Nat) (dst : List ℚ) (off : Nat) :
    (copy_n src n dst off).length = dst.length := by
  unfold copy_n
  induction n with
  | zero => rfl
  | succ n ih => rw [List.range_succ, List.foldl_append, List.foldl_cons, List.foldl_nil,
      List.length_set, ih]

/-- Entry `i` of a buffer after `copy_n(src, n, dst + off)`. -/
theorem getElem?_copy_n (src : List ℚ) (n : Nat) (dst : List ℚ) (off i : Nat) :
    (copy_n src n dst off)[i]? =
      if off ≤ i ∧ i < off + n then (if i < dst.length then some (src.getD (i - off) 0) else none)
      else dst[i]? := by
  induction n with
  | zero =>
    have h : ¬ (off ≤ i ∧ i < off + 0) := by omega
    rw [if_neg h]
    rfl
  | succ n ih =>
    have hlen := length_copy_n src n dst off
    unfold copy_n at ih hlen ⊢
    rw [List.range_succ, List.foldl_append, List.foldl_cons, List.foldl_nil, List.getElem?_set,
      ih, hlen]
    by_cases h1 : off + n = i
    · subst h1
      simp
    · by_cases h2 : off ≤ i ∧ i < off + n
      · have h3 : off ≤ i ∧ i < off + (n + 1) := ⟨h2.1, by omega⟩
        simp [h1, h2, h3]
      · have h3 : ¬ (off ≤ i ∧ i < off + (n + 1)) := by omega
        simp [h1, h2, h3]

theorem length_resize_points (c : CentroidalVoronoiTesselation) (k : Nat) :
    (c.resize_points k).points.length = 3 * k := by
  simp only [CentroidalVoronoiTesselation.resize_points, List.length_append, List.length_take,
    List.length_replicate]
  omega

/-- Growing the point set keeps the entries that were there. -/
theorem getElem?_resize_points (c : CentroidalVoronoiTesselation) (k i : Nat)
    (hi : i < c.points.length) (hk : i < 3 * k) :
    (c.resize_points k).points[i]? = c.points[i]? := by
  simp only [CentroidalVoronoiTesselation.resize_points]
  rw [List.getElem?_append_left (by simp; omega), List.getElem?_take, if_pos hk]

theorem lock_input_points_upto_succ (V : Mat ℚ) (n j : Nat) (c : CentroidalVoronoiTesselation) :
    lock_input_points_upto V n (j + 1) c =
      (copy_n_to_embedding (lock_input_points_upto V n j c) (V.data.getD j []) 3
        (n + j)).lock_point (n + j) := by
  simp only [lock_input_points_upto, List.range_succ, List.foldl_append, List.foldl_cons,
    List.foldl_nil]

theorem length_lock_input_points_upto (V : Mat ℚ) (n j : Nat)
    (c : CentroidalVoronoiTesselation) :
    (lock_input_points_upto V n j c).points.length = c.points.length := by
  induction j with
  | zero => rfl
  | succ j ih =>
    rw [lock_input_points_upto_succ]
    simp only [CentroidalVoronoiTesselation.lock_point, copy_n_to_embedding, length_copy_n, ih]

theorem mem_locked_lock_input_points_upto (V : Mat ℚ) (n j : Nat)
    (c : CentroidalVoronoiTesselation) (x : Nat) :
    x ∈ (lock_input_points_upto V n j c).locked ↔ x ∈ c.locked ∨ (n ≤ x ∧ x < n + j) := by
  induction j with
  | zero => simp [lock_input_points_upto]
  | succ j ih =>
    rw [lock_input_points_upto_succ]
    simp only [CentroidalVoronoiTesselation.lock_point, copy_n_to_embedding, List.mem_cons, ih]
    constructor
    · rintro (h | h | h)
      · right; omega
      · left; exact h
      · right; omega
    · rintro (h | h)
      · right; left; exact h
      · by_cases hx : x = n + j
        · left; exact hx
        · right; right; omega

/-- Entry `i` of the buffer after `j` rounds of the loop over the constrained
points: coordinate `d` of point `n + v` is `V(v, d)`. -/
theorem getElem?_lock_input_points_upto (V : Mat ℚ) (n j : Nat)
    (c : CentroidalVoronoiTesselation) (i : Nat) :
    (lock_input_points_upto V n j c).points[i]? =
      if 3 * n ≤ i ∧ i < 3 * (n + j) then
        (if i < c.points.length then
          some ((V.data.getD ((i - 3 * n) / 3) []).getD ((i - 3 * n) % 3) 0) else none)
      else c.points[i]? := by
  induction j with
  | zero =>
    have h : ¬ (3 * n ≤ i ∧ i < 3 * (n + 0)) := by omega
    rw [if_neg h]
    rfl
  | succ j ih =>
    rw [lock_input_points_upto_succ]
    simp only [CentroidalVoronoiTesselation.lock_point, copy_n_to_embedding]
    rw [getElem?_copy_n, ih, length_lock_input_points_upto]
    by_cases h1 : 3 * (n + j) ≤ i ∧ i < 3 * (n + j) + 3
    · have h2 : 3 * n ≤ i ∧ i < 3 * (n + (j + 1)) := by omega
      have h3 : (i - 3 * n) / 3 = j := by omega
      have h4 : (i - 3 * n) % 3 = i - 3 * (n + j) := by omega
      simp [h1, h2, h3, h4]
    · by_cases h2 : 3 * n ≤ i ∧ i < 3 * (n + j)
      · have h3 : 3 * n ≤ i ∧ i < 3 * (n + (j + 1)) := by omega
        simp [h1, h2, h3]
      · have h3 : ¬ (3 * n ≤ i ∧ i < 3 * (n + (j + 1))) := by omega
        simp [h1, h2, h3]

theorem mem_locked_lock_bbox_corners (B : Mat ℚ) (first : Nat)
    (c : CentroidalVoronoiTesselation) (x : Nat) :
    x ∈ (lock_bbox_corners B first c).locked ↔ x ∈ c.locked ∨ (first ≤ x ∧ x < first + 8) := by
  simp only [lock_bbox_corners, List.range_succ, List.range_zero, List.nil_append,
    List.cons_append, List.foldl_cons, List.foldl_nil, CentroidalVoronoiTesselation.lock_point,
    copy_n_to_embedding, List.mem_cons]
  by_cases hx : x ∈ c.locked
  · simp [hx]
  · simp only [hx, or_false, false_or]
    omega

theorem points_lock_bbox_corners (B : Mat ℚ) (first : Nat) (c : CentroidalVoronoiTesselation) :
    (lock_bbox_corners B first c).points = copy_n B.data.flatten (3 * 8) c.points (3 * first) := by
  simp only [lock_bbox_corners, List.range_succ, List.range_zero, List.nil_append,
    List.cons_append, List.foldl_cons, List.foldl_nil, CentroidalVoronoiTesselation.lock_point,
    copy_n_to_embedding]

theorem getD_map_range {γ : Type} (f : Nat → γ) (d : γ) (n j : Nat) (h : j < n) :
    ((List.range n).map f).getD j d = f j := by
  simp [List.getD_eq_getElem?_getD, List.getElem?_map, List.getElem?_range h]

/-- The output matrix of lines 246-248: row `j` holds the three consecutive
buffer entries of point `j`. -/
theorem embedding_to_matrix_eq (points : List ℚ) (nb : Nat) :
    embedding_to_matrix points nb =
      ⟨3, (List.range nb).map fun j =>
        [points.getD (3 * j) 0, points.getD (3 * j + 1) 0, points.getD (3 * j + 2) 0]⟩ := by
  simp only [embedding_to_matrix, Mat.transposeInPlace, Mat.ofColMajor, Mat.rows,
    List.length_map, List.length_range, Mat.mk.injEq, true_and]
  apply List.map_congr_left
  intro j hj
  have hj1 : j < nb := List.mem_range.mp hj
  simp only [List.range_succ, List.range_zero, List.nil_append, List.cons_append, List.map_cons,
    List.map_nil, getD_map_range _ _ _ _ hj1, getD_map_range _ _ 3 _ (by decide : 0 < 3),
    getD_map_range _ _ 3 _ (by decide : 1 < 3), getD_map_range _ _ 3 _ (by decide : 2 < 3)]
  simp only [List.getD_cons_zero, List.getD_cons_succ, getD_map_range _ _ _ _ hj1, Nat.zero_add,
    Nat.add_comm]

theorem getElem?_embedding_to_matrix (points : List ℚ) (nb j : Nat) (hj : j < nb) :
    (embedding_to_matrix points nb).data[j]? =
      some [points.getD (3 * j) 0, points.getD (3 * j + 1) 0, points.getD (3 * j + 2) 0] := by
  rw [embedding_to_matrix_eq]
  simp [List.getElem?_map, List.getElem?_range hj]

theorem lloyd_phase_length (svc : RelaxationService) (k : Int) (st : SamplerState)
    (h : PreservesCount svc.Lloyd_iterations) :
    (lloyd_phase svc k st).CVT.points.length = st.CVT.points.length := by
  unfold lloyd_phase
  split_ifs
  · exact h _ _
  · rfl

theorem newton_phase_length (svc : RelaxationService) (k : Int) (st : SamplerState)
    (h : PreservesCount svc.Newton_iterations) :
    (newton_phase svc k st).CVT.points.length = st.CVT.points.length := by
  unfold newton_phase
  split_ifs
  · exact h _ _
  · rfl

theorem lloyd_phase_locked (svc : RelaxationService) (k : Int) (st : SamplerState)
    (h : LeavesLockedUnmoved svc.Lloyd_iterations) (i : Nat) (hi : i ∈ st.CVT.locked) :
    i ∈ (lloyd_phase svc k st).CVT.locked ∧
      ∀ d, d < 3 → (lloyd_phase svc k st).CVT.points[3 * i + d]? = st.CVT.points[3 * i + d]? := by
  unfold lloyd_phase
  split_ifs
  · exact h _ _ i hi
  · exact ⟨hi, fun _ _ => rfl⟩

theorem newton_phase_locked (svc : RelaxationService) (k : Int) (st : SamplerState)
    (h : LeavesLockedUnmoved svc.Newton_iterations) (i : Nat) (hi : i ∈ st.CVT.locked) :
    i ∈ (newton_phase svc k st).CVT.locked ∧
      ∀ d, d < 3 → (newton_phase svc k st).CVT.points[3 * i + d]? = st.CVT.points[3 * i + d]? := by
  unfold newton_phase
  split_ifs
  · exact h _ _ i hi
  · exact ⟨hi, fun _ _ => rfl⟩

/-- Both phases together leave the coordinates of a locked point as they were. -/
theorem phases_locked (svc : RelaxationService) (kL kN : Int) (st : SamplerState)
    (hL : LeavesLockedUnmoved svc.Lloyd_iterations)
    (hN : LeavesLockedUnmoved svc.Newton_iterations) (i : Nat) (hi : i ∈ st.CVT.locked)
    (d : Nat) (hd : d < 3) :
    (newton_phase svc kN (lloyd_phase svc kL st)).CVT.points[3 * i + d]? =
      st.CVT.points[3 * i + d]? := by
  have h1 := lloyd_phase_locked svc kL st hL i hi
  have h2 := newton_phase_locked svc kN (lloyd_phase svc kL st) hN i h1.1
  rw [h2.2 d hd, h1.2 d hd]

theorem ofDynamic_colwise_minCoeff (V : Mat ℚ) (hc : V.cols = 3) (hne : 0 < V.rows) :
    RowVector3d.ofDynamic V.colwise_minCoeff = some V.minCorner := by
  unfold Mat.minCorner Mat.colwise_minCoeff
  unfold Mat.rows at hne
  match hd : V.data, hne with
  | r :: rs, _ => simp [hc, List.range_succ, RowVector3d.ofDynamic]

theorem ofDynamic_colwise_maxCoeff (V : Mat ℚ) (hc : V.cols = 3) (hne : 0 < V.rows) :
    RowVector3d.ofDynamic V.colwise_maxCoeff = some V.maxCorner := by
  unfold Mat.maxCorner Mat.colwise_maxCoeff
  unfold Mat.rows at hne
  match hd : V.data, hne with
  | r :: rs, _ => simp [hc, List.range_succ, RowVector3d.ofDynamic]

/-- Closed form of lines 179-216 of `sample_bbox` on a non-empty N x 3 input
with `num_samples > 3`: the setup succeeds. -/
theorem sample_bbox_setup_eq (svc : RelaxationService) (V : Mat ℚ) (n : Int) (padding : ℚ)
    (hc : V.cols = 3) (hne : 0 < V.rows) (hn : 3 < n) :
    sample_bbox_setup svc V n padding =
      Except.ok (lock_bbox_corners (bbox_corners V.minCorner V.maxCorner padding)
        (n.toNat + V.rows)
        (lock_input_points V n.toNat
          ((sample_bbox_initial svc V n padding).resize_points (n.toNat + V.rows + 8)))) := by
  unfold sample_bbox_setup sample_bbox_initial sample_bbox_domain
  rw [if_pos hn, ofDynamic_colwise_minCoeff V hc hne, ofDynamic_colwise_maxCoeff V hc hne]
  simp only [create_box_mesh_eq]

/-- The padded corner table `B`: row `k` is corner `k` of the padded cuboid. -/
theorem bbox_corners_eq (pmin pmax : RowVector3d) (padding : ℚ) :
    bbox_corners pmin pmax padding =
      ⟨3, (List.range 8).map fun k =>
        rowOfPoint (box_corner (pmin.subScalar padding) (pmax.addScalar padding) k)⟩ := by
  simp [bbox_corners, rowwise_blend, bbox_template_B, RowVector3d.coeff, box_corner, rowOfPoint,
    List.range_succ]

theorem flatten_bbox_corners (pmin pmax : RowVector3d) (padding : ℚ) (k d : Nat)
    (hk : k < 8) (hd : d < 3) :
    (bbox_corners pmin pmax padding).data.flatten[3 * k + d]? =
      some ((rowOfPoint (box_corner (pmin.subScalar padding) (pmax.addScalar padding) k)).getD
        d 0) := by
  rw [bbox_corners_eq]
  interval_cases k <;> interval_cases d <;> rfl

/-- Buffer of the sample set handed to the relaxation phases: the entries of
the free samples are those of the resized initial sampling, then come the rows
of `V`, then the rows of the corner table. -/
theorem getElem?_setup_points (B V : Mat ℚ) (n : Nat) (c : CentroidalVoronoiTesselation)
    (hlen : c.points.length = 3 * (n + V.rows + 8)) (i : Nat) :
    (lock_bbox_corners B (n + V.rows) (lock_input_points V n c)).points[i]? =
      if 3 * (n + V.rows) ≤ i ∧ i < 3 * (n + V.rows + 8) then
        some (B.data.flatten.getD (i - 3 * (n + V.rows)) 0)
      else if 3 * n ≤ i ∧ i < 3 * (n + V.rows) then
        some ((V.data.getD ((i - 3 * n) / 3) []).getD ((i - 3 * n) % 3) 0)
      else c.points[i]? := by
  have h3 : lock_input_points V n c = lock_input_points_upto V n V.rows c := rfl
  rw [points_lock_bbox_corners, getElem?_copy_n, h3, getElem?_lock_input_points_upto,
    length_lock_input_points_upto, hlen]
  by_cases h1 : 3 * (n + V.rows) ≤ i ∧ i < 3 * (n + V.rows) + 3 * 8
  · have h2 : 3 * (n + V.rows) ≤ i ∧ i < 3 * (n + V.rows + 8) := by omega
    have h4 : i < 3 * (n + V.rows + 8) := by omega
    rw [if_pos h1, if_pos h4, if_pos h2]
  · have h2 : ¬ (3 * (n + V.rows) ≤ i ∧ i < 3 * (n + V.rows + 8)) := by omega
    by_cases h5 : 3 * n ≤ i ∧ i < 3 * (n + V.rows)
    · have h4 : i < 3 * (n + V.rows + 8) := by omega
      rw [if_neg h1, if_pos h5, if_pos h4, if_neg h2, if_pos h5]
    · rw [if_neg h1, if_neg h5, if_neg h2, if_neg h5]

theorem length_setup_points (B V : Mat ℚ) (n : Nat) (c : CentroidalVoronoiTesselation) :
    (lock_bbox_corners B (n + V.rows) (lock_input_points V n c)).points.length =
      c.points.length := by
  have h3 : lock_input_points V n c = lock_input_points_upto V n V.rows c := rfl
  rw [points_lock_bbox_corners, length_copy_n, h3, length_lock_input_points_upto]

theorem mem_locked_setup (B V : Mat ℚ) (n : Nat) (c : CentroidalVoronoiTesselation) (x : Nat)
    (hx : n ≤ x ∧ x < n + V.rows + 8) :
    x ∈ (lock_bbox_corners B (n + V.rows) (lock_input_points V n c)).locked := by
  have h3 : lock_input_points V n c = lock_input_points_upto V n V.rows c := rfl
  rw [mem_locked_lock_bbox_corners, h3, mem_locked_lock_input_points_upto]
  by_cases h : x < n + V.rows
  · left; right; omega
  · right; omega

/-- Row `j` of the output matrix when the three buffer entries of point `j`
are known. -/
theorem row_of_embedding (pts : List ℚ) (j : Nat) (a b c : ℚ)
    (h0 : pts[3 * j + 0]? = some a) (h1 : pts[3 * j + 1]? = some b)
    (h2 : pts[3 * j + 2]? = some c) :
    (embedding_to_matrix pts (pts.length / 3)).data[j]? = some [a, b, c] := by
  have hlt : 3 * j + 2 < pts.length := by
    by_contra hcon
    rw [List.getElem?_eq_none (by omega)] at h2
    exact absurd h2 (by simp)
  have hj : j < pts.length / 3 := by omega
  rw [getElem?_embedding_to_matrix pts _ j hj]
  simp only [Nat.add_zero] at h0
  simp [List.getD_eq_getElem?_getD, h0, h1, h2]

/-- Entries of the rows of `V` in the sample set handed to the relaxation
phases. -/
theorem setup_points_input (B V : Mat ℚ) (n : Nat) (c : CentroidalVoronoiTesselation)
    (hlen : c.points.length = 3 * (n + V.rows + 8)) (v d : Nat) (hv : v < V.rows) (hd : d < 3) :
    (lock_bbox_corners B (n + V.rows) (lock_input_points V n c)).points[3 * (n + v) + d]? =
      some ((V.data.getD v []).getD d 0) := by
  rw [getElem?_setup_points B V n c hlen]
  have h1 : ¬ (3 * (n + V.rows) ≤ 3 * (n + v) + d ∧ 3 * (n + v) + d < 3 * (n + V.rows + 8)) := by
    omega
  have h2 : 3 * n ≤ 3 * (n + v) + d ∧ 3 * (n + v) + d < 3 * (n + V.rows) := by omega
  have h3 : (3 * (n + v) + d - 3 * n) / 3 = v := by omega
  have h4 : (3 * (n + v) + d - 3 * n) % 3 = d := by omega
  rw [if_neg h1, if_pos h2, h3, h4]

/-- Entries of the box corners in the sample set handed to the relaxation
phases. -/
theorem setup_points_corner (pmin pmax : RowVector3d) (padding : ℚ) (V : Mat ℚ) (n : Nat)
    (c : CentroidalVoronoiTesselation) (hlen : c.points.length = 3 * (n + V.rows + 8))
    (k d : Nat) (hk : k < 8) (hd : d < 3) :
    (lock_bbox_corners (bbox_corners pmin pmax padding) (n + V.rows)
        (lock_input_points V n c)).points[3 * (n + V.rows + k) + d]? =
      some ((rowOfPoint (box_corner (pmin.subScalar padding) (pmax.addScalar padding) k)).getD
        d 0) := by
  rw [getElem?_setup_points _ V n c hlen]
  have h1 : 3 * (n + V.rows) ≤ 3 * (n + V.rows + k) + d ∧
      3 * (n + V.rows + k) + d < 3 * (n + V.rows + 8) := by omega
  have h3 : 3 * (n + V.rows + k) + d - 3 * (n + V.rows) = 3 * k + d := by omega
  rw [if_pos h1, h3, List.getD_eq_getElem?_getD, flatten_bbox_corners pmin pmax padding k d hk hd]
  rfl

theorem row_eq_of_length_three (r : List ℚ) (h : r.length = 3) :
    [r.getD 0 0, r.getD 1 0, r.getD 2 0] = r := by
  match r, h with
  | [a, b, c], _ => rfl

/-- Output of `sample_bbox` on a non-empty N x 3 input with `num_samples > 3`:
the call succeeds and returns the buffer left by the relaxation phases. -/
theorem sample_bbox_eq (svc : RelaxationService) (V : Mat ℚ) (n : Int) (padding : ℚ)
    (kL kN : Int) (c0 : CentroidalVoronoiTesselation)
    (h : sample_bbox_setup svc V n padding = Except.ok c0) :
    sample_bbox svc V n padding kL kN =
      Except.ok (embedding_to_matrix
        (newton_phase svc kN (lloyd_phase svc kL ⟨c0, []⟩)).CVT.points
        ((newton_phase svc kN (lloyd_phase svc kL ⟨c0, []⟩)).CVT.points.length / 3)) := by
  simp only [sample_bbox, sample_bbox_state, h, CentroidalVoronoiTesselation.nb_points]

theorem iterate_halve_length (k : Nat) (c : CentroidalVoronoiTesselation) :
    (Nat.iterate halve_free_points k c).points.length = c.points.length := by
  induction k with
  | zero => rfl
  | succ k ih =>
    rw [Function.iterate_succ_apply']
    simp [halve_free_points, ih]

theorem iterate_halve_locked (k : Nat) (c : CentroidalVoronoiTesselation) :
    (Nat.iterate halve_free_points k c).locked = c.locked := by
  induction k with
  | zero => rfl
  | succ k ih =>
    rw [Function.iterate_succ_apply']
    simp [halve_free_points, ih]

theorem halve_keeps_locked (c : CentroidalVoronoiTesselation) (i d : Nat) (hi : i ∈ c.locked)
    (hd : d < 3) : (halve_free_points c).points[3 * i + d]? = c.points[3 * i + d]? := by
  have hdiv : (3 * i + d) / 3 = i := by omega
  simp only [halve_free_points, List.getElem?_map]
  by_cases hlt : 3 * i + d < c.points.length
  · rw [List.getElem?_range hlt]
    simp [hdiv, hi, List.getD_eq_getElem?_getD, List.getElem?_eq_getElem hlt]
  · have h1 : c.points.length ≤ 3 * i + d := by omega
    rw [List.getElem?_eq_none (by simpa using h1), List.getElem?_eq_none h1]
    rfl

theorem iterate_halve_keeps_locked (k : Nat) (c : CentroidalVoronoiTesselation) (i d : Nat)
    (hi : i ∈ c.locked) (hd : d < 3) :
    (Nat.iterate halve_free_points k c).points[3 * i + d]? = c.points[3 * i + d]? := by
  induction k with
  | zero => rfl
  | succ k ih =>
    rw [Function.iterate_succ_apply',
      halve_keeps_locked _ i d (by rw [iterate_halve_locked]; exact hi) hd, ih]

/-- The stand-in relaxation rule does not change the point count. -/
theorem relax_rounds_halve_preservesCount (cancel : Option Nat) :
    PreservesCount (relax_rounds halve_free_points cancel) := by
  intro c k
  unfold relax_rounds
  match cancel with
  | none => exact iterate_halve_length _ _
  | some j =>
    dsimp only
    split_ifs
    · exact iterate_halve_length _ _
    · exact iterate_halve_length _ _

/-- The stand-in relaxation rule leaves locked points unmoved. -/
theorem relax_rounds_halve_leavesLocked (cancel : Option Nat) :
    LeavesLockedUnmoved (relax_rounds halve_free_points cancel) := by
  intro c k i hi
  unfold relax_rounds
  match cancel with
  | none =>
    exact ⟨by rw [iterate_halve_locked]; exact hi,
      fun d hd => iterate_halve_keeps_locked _ c i d hi hd⟩
  | some j =>
    dsimp only
    split_ifs
    · exact ⟨by rw [iterate_halve_locked]; exact hi,
        fun d hd => iterate_halve_keeps_locked _ c i d hi hd⟩
    · exact ⟨by rw [iterate_halve_locked]; exact hi,
        fun d hd => iterate_halve_keeps_locked _ c i d hi hd⟩

/-- The stand-in initial sampling yields `n` points. -/
theorem halving_service_samplingYields (a b : Option Nat) :
    (halving_service a b).SamplingYields := by
  intro c n
  show ((List.range (3 * n)).map fun k : Nat => ((k : ℚ) + 1)).length = 3 * n
  rw [List.length_map, List.length_range]

theorem foldl_min_le (f : List ℚ → ℚ) (rs : List (List ℚ)) (a : ℚ) :
    rs.foldl (fun m r => min m (f r)) a ≤ a ∧
      ∀ r ∈ rs, rs.foldl (fun m r => min m (f r)) a ≤ f r := by
  induction rs generalizing a with
  | nil => simp
  | cons r0 rs ih =>
    rw [List.foldl_cons]
    have h := ih (min a (f r0))
    refine ⟨le_trans h.1 (min_le_left _ _), ?_⟩
    intro r hr
    rcases List.mem_cons.mp hr with h1 | h1
    · rw [h1]; exact le_trans h.1 (min_le_right _ _)
    · exact h.2 r h1

theorem foldl_min_mem (f : List ℚ → ℚ) (rs : List (List ℚ)) (a : ℚ) :
    rs.foldl (fun m r => min m (f r)) a = a ∨
      ∃ r ∈ rs, rs.foldl (fun m r => min m (f r)) a = f r := by
  induction rs generalizing a with
  | nil => left; rfl
  | cons r0 rs ih =>
    rw [List.foldl_cons]
    rcases ih (min a (f r0)) with h | ⟨r, hr, h⟩
    · rcases min_choice a (f r0) with h1 | h1
      · left; rw [h, h1]
      · right; exact ⟨r0, List.mem_cons_self _ _, by rw [h, h1]⟩
    · right; exact ⟨r, List.mem_cons_of_mem _ hr, h⟩

theorem le_foldl_max (f : List ℚ → ℚ) (rs : List (List ℚ)) (a : ℚ) :
    a ≤ rs.foldl (fun m r => max m (f r)) a ∧
      ∀ r ∈ rs, f r ≤ rs.foldl (fun m r => max m (f r)) a := by
  induction rs generalizing a with
  | nil => simp
  | cons r0 rs ih =>
    rw [List.foldl_cons]
    have h := ih (max a (f r0))
    refine ⟨le_trans (le_max_left _ _) h.1, ?_⟩
    intro r hr
    rcases List.mem_cons.mp hr with h1 | h1
    · rw [h1]; exact le_trans (le_max_right _ _) h.1
    · exact h.2 r h1

theorem foldl_max_mem (f : List ℚ → ℚ) (rs : List (List ℚ)) (a : ℚ) :
    rs.foldl (fun m r => max m (f r)) a = a ∨
      ∃ r ∈ rs, rs.foldl (fun m r => max m (f r)) a = f r := by
  induction rs generalizing a with
  | nil => left; rfl
  | cons r0 rs ih =>
    rw [List.foldl_cons]
    rcases ih (max a (f r0)) with h | ⟨r, hr, h⟩
    · rcases max_choice a (f r0) with h1 | h1
      · left; rw [h, h1]
      · right; exact ⟨r0, List.mem_cons_self _ _, by rw [h, h1]⟩
    · right; exact ⟨r, List.mem_cons_of_mem _ hr, h⟩

/-- The vector `pmin` of `sample_bbox` is the column-wise minimum of `V`:
a lower bound of every row, attained in every column. -/
theorem minCorner_spec (V : Mat ℚ) (hc : V.cols = 3) (hne : 0 < V.rows) :
    (∀ r ∈ V.data, V.minCorner.c0 ≤ r.getD 0 0 ∧ V.minCorner.c1 ≤ r.getD 1 0 ∧
        V.minCorner.c2 ≤ r.getD 2 0) ∧
      (∃ r ∈ V.data, r.getD 0 0 = V.minCorner.c0) ∧
      (∃ r ∈ V.data, r.getD 1 0 = V.minCorner.c1) ∧
      (∃ r ∈ V.data, r.getD 2 0 = V.minCorner.c2) := by
  unfold Mat.minCorner Mat.colwise_minCoeff
  unfold Mat.rows at hne
  match hd : V.data, hne with
  | r0 :: rs, _ =>
    simp only [hc, List.range_succ, List.range_zero, List.nil_append, List.cons_append,
      List.map_cons, List.map_nil, RowVector3d.ofDynamic, Option.getD_some]
    have key : ∀ j : Nat,
        (∀ r ∈ r0 :: rs, rs.foldl (fun m r1 => min m (r1.getD j 0)) (r0.getD j 0) ≤ r.getD j 0) ∧
        (∃ r ∈ r0 :: rs, r.getD j 0 = rs.foldl (fun m r1 => min m (r1.getD j 0)) (r0.getD j 0)) := by
      intro j
      have h1 := foldl_min_le (fun r => r.getD j 0) rs (r0.getD j 0)
      have h2 := foldl_min_mem (fun r => r.getD j 0) rs (r0.getD j 0)
      refine ⟨?_, ?_⟩
      · intro r hr
        rcases List.mem_cons.mp hr with h | h
        · rw [h]; exact h1.1
        · exact h1.2 r h
      · rcases h2 with h | ⟨r, hr, h⟩
        · exact ⟨r0, List.mem_cons_self _ _, h.symm⟩
        · exact ⟨r, List.mem_cons_of_mem _ hr, h.symm⟩
    exact ⟨fun r hr => ⟨(key 0).1 r hr, (key 1).1 r hr, (key 2).1 r hr⟩,
      (key 0).2, (key 1).2, (key 2).2⟩

/-- The vector `pmax` of `sample_bbox` is the column-wise maximum of `V`:
an upper bound of every row, attained in every column. -/
theorem maxCorner_spec (V : Mat ℚ) (hc : V.cols = 3) (hne : 0 < V.rows) :
    (∀ r ∈ V.data, r.getD 0 0 ≤ V.maxCorner.c0 ∧ r.getD 1 0 ≤ V.maxCorner.c1 ∧
        r.getD 2 0 ≤ V.maxCorner.c2) ∧
      (∃ r ∈ V.data, r.getD 0 0 = V.maxCorner.c0) ∧
      (∃ r ∈ V.data, r.getD 1 0 = V.maxCorner.c1) ∧
      (∃ r ∈ V.data, r.getD 2 0 = V.maxCorner.c2) := by
  unfold Mat.maxCorner Mat.colwise_maxCoeff
  unfold Mat.rows at hne
  match hd : V.data, hne with
  | r0 :: rs, _ =>
    simp only [hc, List.range_succ, List.range_zero, List.nil_append, List.cons_append,
      List.map_cons, List.map_nil, RowVector3d.ofDynamic, Option.getD_some]
    have key : ∀ j : Nat,
        (∀ r ∈ r0 :: rs, r.getD j 0 ≤ rs.foldl (fun m r1 => max m (r1.getD j 0)) (r0.getD j 0)) ∧
        (∃ r ∈ r0 :: rs, r.getD j 0 = rs.foldl (fun m r1 => max m (r1.getD j 0)) (r0.getD j 0)) := by
      intro j
      have h1 := le_foldl_max (fun r => r.getD j 0) rs (r0.getD j 0)
      have h2 := foldl_max_mem (fun r => r.getD j 0) rs (r0.getD j 0)
      refine ⟨?_, ?_⟩
      · intro r hr
        rcases List.mem_cons.mp hr with h | h
        · rw [h]; exact h1.1
        · exact h1.2 r h
      · rcases h2 with h | ⟨r, hr, h⟩
        · exact ⟨r0, List.mem_cons_self _ _, h.symm⟩
        · exact ⟨r, List.mem_cons_of_mem _ hr, h.symm⟩
    exact ⟨fun r hr => ⟨(key 0).1 r hr, (key 1).1 r hr, (key 2).1 r hr⟩,
      (key 0).2, (key 1).2, (key 2).2⟩

end Sampler

/-! ## Claims on the constrained volumetric sampler -/

/-- C4. Sampler output size: for a non-empty `V` of shape N x 3, `n > 3`, any
padding and any round counts, whatever the relaxation phases report
(cancelled or not), `sample_bbox` succeeds and returns `P` with exactly
`n + N + 8` rows and 3 columns, provided relaxation does not change the point
count. -/
theorem sample_bbox_output_size (svc : RelaxationService) (V : Mat ℚ) (n : Int) (padding : ℚ)
    (kL kN : Int) (hc : V.cols = 3) (hne : 0 < V.rows) (hn : 3 < n)
    (hL : PreservesCount svc.Lloyd_iterations) (hN : PreservesCount svc.Newton_iterations) :
    ∃ P, sample_bbox svc V n padding kL kN = Except.ok P ∧
      (P.rows : Int) = n + V.rows + 8 ∧ P.cols = 3 ∧ P.WF := by
  have hsetup := sample_bbox_setup_eq svc V n padding hc hne hn
  refine ⟨_, sample_bbox_eq svc V n padding kL kN _ hsetup, ?_, ?_, ?_⟩
  · rw [newton_phase_length _ _ _ hN, lloyd_phase_length _ _ _ hL, length_setup_points,
      length_resize_points, embedding_to_matrix_eq]
    simp only [Mat.rows, List.length_map, List.length_range]
    omega
  · rw [embedding_to_matrix_eq]
  · rw [embedding_to_matrix_eq]
    intro r hr
    obtain ⟨j, _, rfl⟩ := List.mem_map.mp hr
    rfl

/-- Witness of C4: two input points, 4 samples, 3 Lloyd rounds cancelled
before the second one and 2 Newton rounds. -/
theorem sample_bbox_output_size_two_points :
    ∃ P, sample_bbox (halving_service (some 1) none) two_points_V 4 (1 / 2) 3 2 = Except.ok P ∧
      (P.rows : Int) = 4 + two_points_V.rows + 8 ∧ P.cols = 3 ∧ P.WF :=
  sample_bbox_output_size (halving_service (some 1) none) two_points_V 4 (1 / 2) 3 2 rfl
    (by decide) (by decide) (relax_rounds_halve_preservesCount _)
    (relax_rounds_halve_preservesCount _)

/-- C5. Locking invariant: for a non-empty `V` of shape N x 3, `n > 3` and any
numbers of Lloyd and Newton rounds, when relaxation leaves locked points
unmoved, row `n + v` of the output `P` of `sample_bbox` is row `v` of `V` for
every `v < N`, and rows `n + N .. n + N + 7` are, in order, the 8 rows of the
computed corner table: the last `N + 8` rows are `V` followed by the corners. -/
theorem sample_bbox_locking (svc : RelaxationService) (V : Mat ℚ) (n : Int) (padding : ℚ)
    (kL kN : Int) (hV : V.WF) (hc : V.cols = 3) (hne : 0 < V.rows) (hn : 3 < n)
    (hL : LeavesLockedUnmoved svc.Lloyd_iterations)
    (hN : LeavesLockedUnmoved svc.Newton_iterations) :
    ∃ P, sample_bbox svc V n padding kL kN = Except.ok P ∧
      (∀ v, v < V.rows → P.data[n.toNat + v]? = V.data[v]?) ∧
      (∀ k, k < 8 → P.data[n.toNat + V.rows + k]? =
        (bbox_corners V.minCorner V.maxCorner padding).data[k]?) := by
  have hsetup := sample_bbox_setup_eq svc V n padding hc hne hn
  have hlen := length_resize_points (sample_bbox_initial svc V n padding)
    (n.toNat + V.rows + 8)
  refine ⟨_, sample_bbox_eq svc V n padding kL kN _ hsetup, ?_, ?_⟩
  · intro v hv
    have hmem := mem_locked_setup (bbox_corners V.minCorner V.maxCorner padding) V n.toNat
      ((sample_bbox_initial svc V n padding).resize_points (n.toNat + V.rows + 8))
      (n.toNat + v) (by omega)
    have hpt : ∀ d, d < 3 → (newton_phase svc kN (lloyd_phase svc kL
        ⟨lock_bbox_corners (bbox_corners V.minCorner V.maxCorner padding) (n.toNat + V.rows)
          (lock_input_points V n.toNat ((sample_bbox_initial svc V n padding).resize_points
            (n.toNat + V.rows + 8))), []⟩)).CVT.points[3 * (n.toNat + v) + d]? =
        some ((V.data.getD v []).getD d 0) := by
      intro d hd
      rw [phases_locked svc kL kN _ hL hN _ hmem d hd]
      exact setup_points_input _ V n.toNat _ hlen v d hv hd
    rw [row_of_embedding _ _ _ _ _ (hpt 0 (by decide)) (hpt 1 (by decide)) (hpt 2 (by decide))]
    have hv1 : v < V.data.length := hv
    have hrow : (V.data[v]).length = 3 := by rw [hV _ (List.getElem_mem _), hc]
    rw [List.getElem?_eq_getElem hv1, List.getD_eq_getElem _ _ hv1,
      row_eq_of_length_three _ hrow]
  · intro k hk
    have hmem := mem_locked_setup (bbox_corners V.minCorner V.maxCorner padding) V n.toNat
      ((sample_bbox_initial svc V n padding).resize_points (n.toNat + V.rows + 8))
      (n.toNat + V.rows + k) (by omega)
    have hpt : ∀ d, d < 3 → (newton_phase svc kN (lloyd_phase svc kL
        ⟨lock_bbox_corners (bbox_corners V.minCorner V.maxCorner padding) (n.toNat + V.rows)
          (lock_input_points V n.toNat ((sample_bbox_initial svc V n padding).resize_points
            (n.toNat + V.rows + 8))), []⟩)).CVT.points[3 * (n.toNat + V.rows + k) + d]? =
        some ((rowOfPoint (box_corner (V.minCorner.subScalar padding)
          (V.maxCorner.addScalar padding) k)).getD d 0) := by
      intro d hd
      rw [phases_locked svc kL kN _ hL hN _ hmem d hd]
      exact setup_points_corner _ _ _ V n.toNat _ hlen k d hk hd
    rw [row_of_embedding _ _ _ _ _ (hpt 0 (by decide)) (hpt 1 (by decide)) (hpt 2 (by decide)),
      bbox_corners_eq]
    simp only [List.getElem?_map, List.getElem?_range hk, Option.map_some']
    rfl

/-- Witness of C5: two input points, 4 samples, 3 Lloyd rounds and 2 Newton
rounds cancelled before the first one. -/
theorem sample_bbox_locking_two_points :
    ∃ P, sample_bbox (halving_service none (some 0)) two_points_V 4 (1 / 2) 3 2 = Except.ok P ∧
      (∀ v, v < two_points_V.rows → P.data[(4 : Int).toNat + v]? = two_points_V.data[v]?) ∧
      (∀ k, k < 8 → P.data[(4 : Int).toNat + two_points_V.rows + k]? =
        (bbox_corners two_points_V.minCorner two_points_V.maxCorner (1 / 2)).data[k]?) :=
  sample_bbox_locking (halving_service none (some 0)) two_points_V 4 (1 / 2) 3 2 (by decide) rfl
    (by decide) (by decide) (relax_rounds_halve_leavesLocked _)
    (relax_rounds_halve_leavesLocked _)

/-- C6. Bounding invariant: on a non-empty `V` of shape N x 3 with `n > 3`,
`pmin` and `pmax` are the column-wise minimum and maximum of `V`, and for
every `k < 8`, read in binary as `(k / 4, k / 2 % 2, k % 2)`, the `k`-th box
corner of `sample_bbox` is the locked point `n + N + k` of the sample set and
has on each axis the coordinate `pmax + padding` where the bit is 1 and
`pmin - padding` where it is 0; it is vertex `k` of the box domain mesh built
by `create_box_mesh` for the same `pmin`, `pmax`, `padding`; and when
relaxation leaves locked points unmoved it is row `n + N + k` of the output. -/
theorem sample_bbox_bounding (svc : RelaxationService) (V : Mat ℚ) (n : Int) (padding : ℚ)
    (kL kN : Int) (M0 : GEO.Mesh) (hc : V.cols = 3) (hne : 0 < V.rows) (hn : 3 < n) :
    ((∀ r ∈ V.data, (V.minCorner.c0 ≤ r.getD 0 0 ∧ r.getD 0 0 ≤ V.maxCorner.c0) ∧
          (V.minCorner.c1 ≤ r.getD 1 0 ∧ r.getD 1 0 ≤ V.maxCorner.c1) ∧
          (V.minCorner.c2 ≤ r.getD 2 0 ∧ r.getD 2 0 ≤ V.maxCorner.c2)) ∧
        (∃ r ∈ V.data, r.getD 0 0 = V.minCorner.c0) ∧ (∃ r ∈ V.data, r.getD 0 0 = V.maxCorner.c0) ∧
        (∃ r ∈ V.data, r.getD 1 0 = V.minCorner.c1) ∧ (∃ r ∈ V.data, r.getD 1 0 = V.maxCorner.c1) ∧
        (∃ r ∈ V.data, r.getD 2 0 = V.minCorner.c2) ∧
        (∃ r ∈ V.data, r.getD 2 0 = V.maxCorner.c2)) ∧
      (∃ c0, sample_bbox_setup svc V n padding = Except.ok c0 ∧
        ∀ k, k < 8 →
          (n.toNat + V.rows + k) ∈ c0.locked ∧
          c0.points[3 * (n.toNat + V.rows + k) + 0]? = some
            (if k / 4 % 2 = 1 then V.maxCorner.c0 + padding else V.minCorner.c0 - padding) ∧
          c0.points[3 * (n.toNat + V.rows + k) + 1]? = some
            (if k / 2 % 2 = 1 then V.maxCorner.c1 + padding else V.minCorner.c1 - padding) ∧
          c0.points[3 * (n.toNat + V.rows + k) + 2]? = some
            (if k % 2 = 1 then V.maxCorner.c2 + padding else V.minCorner.c2 - padding) ∧
          (create_box_mesh V.minCorner V.maxCorner padding M0).2.point k =
            ⟨if k / 4 % 2 = 1 then V.maxCorner.c0 + padding else V.minCorner.c0 - padding,
             if k / 2 % 2 = 1 then V.maxCorner.c1 + padding else V.minCorner.c1 - padding,
             if k % 2 = 1 then V.maxCorner.c2 + padding else V.minCorner.c2 - padding⟩) ∧
      (LeavesLockedUnmoved svc.Lloyd_iterations → LeavesLockedUnmoved svc.Newton_iterations →
        ∃ P, sample_bbox svc V n padding kL kN = Except.ok P ∧
          ∀ k, k < 8 → P.data[n.toNat + V.rows + k]? = some
            [if k / 4 % 2 = 1 then V.maxCorner.c0 + padding else V.minCorner.c0 - padding,
             if k / 2 % 2 = 1 then V.maxCorner.c1 + padding else V.minCorner.c1 - padding,
             if k % 2 = 1 then V.maxCorner.c2 + padding else V.minCorner.c2 - padding]) := by
  have hmin := minCorner_spec V hc hne
  have hmax := maxCorner_spec V hc hne
  have hsetup := sample_bbox_setup_eq svc V n padding hc hne hn
  have hlen := length_resize_points (sample_bbox_initial svc V n padding)
    (n.toNat + V.rows + 8)
  have hcorner : ∀ k, rowOfPoint (box_corner (V.minCorner.subScalar padding)
      (V.maxCorner.addScalar padding) k) =
      [if k / 4 % 2 = 1 then V.maxCorner.c0 + padding else V.minCorner.c0 - padding,
       if k / 2 % 2 = 1 then V.maxCorner.c1 + padding else V.minCorner.c1 - padding,
       if k % 2 = 1 then V.maxCorner.c2 + padding else V.minCorner.c2 - padding] := fun _ => rfl
  refine ⟨⟨fun r hr => ⟨⟨(hmin.1 r hr).1, (hmax.1 r hr).1⟩, ⟨(hmin.1 r hr).2.1, (hmax.1 r hr).2.1⟩,
      ⟨(hmin.1 r hr).2.2, (hmax.1 r hr).2.2⟩⟩, hmin.2.1, hmax.2.1, hmin.2.2.1, hmax.2.2.1,
      hmin.2.2.2, hmax.2.2.2⟩, ⟨_, hsetup, ?_⟩, ?_⟩
  · intro k hk
    have hpt := fun d hd => setup_points_corner V.minCorner V.maxCorner padding V n.toNat
      ((sample_bbox_initial svc V n padding).resize_points (n.toNat + V.rows + 8)) hlen k d hk hd
    refine ⟨mem_locked_setup _ V n.toNat _ _ (by omega), ?_, ?_, ?_, ?_⟩
    · rw [hpt 0 (by decide), hcorner]; rfl
    · rw [hpt 1 (by decide), hcorner]; rfl
    · rw [hpt 2 (by decide), hcorner]; rfl
    · rw [create_box_mesh_eq]
      interval_cases k <;> rfl
  · intro hL hN
    refine ⟨_, sample_bbox_eq svc V n padding kL kN _ hsetup, ?_⟩
    intro k hk
    have hmem := mem_locked_setup (bbox_corners V.minCorner V.maxCorner padding) V n.toNat
      ((sample_bbox_initial svc V n padding).resize_points (n.toNat + V.rows + 8))
      (n.toNat + V.rows + k) (by omega)
    have hpt : ∀ d, d < 3 → (newton_phase svc kN (lloyd_phase svc kL
        ⟨lock_bbox_corners (bbox_corners V.minCorner V.maxCorner padding) (n.toNat + V.rows)
          (lock_input_points V n.toNat ((sample_bbox_initial svc V n padding).resize_points
            (n.toNat + V.rows + 8))), []⟩)).CVT.points[3 * (n.toNat + V.rows + k) + d]? =
        some ((rowOfPoint (box_corner (V.minCorner.subScalar padding)
          (V.maxCorner.addScalar padding) k)).getD d 0) := by
      intro d hd
      rw [phases_locked svc kL kN _ hL hN _ hmem d hd]
      exact setup_points_corner _ _ _ V n.toNat _ hlen k d hk hd
    rw [row_of_embedding _ _ _ _ _ (hpt 0 (by decide)) (hpt 1 (by decide)) (hpt 2 (by decide)),
      hcorner]
    rfl

/-- Witness of C6: two input points spanning the box `[1, 3] x [1, 5] x [3, 9]`,
padded by 1/2. -/
theorem sample_bbox_bounding_two_points :
    ∃ P, sample_bbox (halving_service none none) two_points_V 4 (1 / 2) 3 2 = Except.ok P ∧
      ∀ k, k < 8 → P.data[(4 : Int).toNat + two_points_V.rows + k]? = some
        [if k / 4 % 2 = 1 then two_points_V.maxCorner.c0 + 1 / 2
          else two_points_V.minCorner.c0 - 1 / 2,
         if k / 2 % 2 = 1 then two_points_V.maxCorner.c1 + 1 / 2
          else two_points_V.minCorner.c1 - 1 / 2,
         if k % 2 = 1 then two_points_V.maxCorner.c2 + 1 / 2
          else two_points_V.minCorner.c2 - 1 / 2] :=
  (sample_bbox_bounding (halving_service none none) two_points_V 4 (1 / 2) 3 2 empty_mesh rfl
    (by decide) (by decide)).2.2 (relax_rounds_halve_leavesLocked _)
    (relax_rounds_halve_leavesLocked _)

/-- Entries of the free samples in the sample set handed to the relaxation
phases: growing the point set and writing the locked points leaves them as the
initial sampling produced them. -/
theorem setup_points_free (B V : Mat ℚ) (n : Nat) (c : GEO.CentroidalVoronoiTesselation)
    (hinit : c.points.length = 3 * n) (i : Nat) (hi : i < 3 * n) :
    (lock_bbox_corners B (n + V.rows)
        (lock_input_points V n (c.resize_points (n + V.rows + 8)))).points[i]? =
      c.points[i]? := by
  rw [getElem?_setup_points B V n _ (length_resize_points c _)]
  have h1 : ¬ (3 * (n + V.rows) ≤ i ∧ i < 3 * (n + V.rows + 8)) := by omega
  have h2 : ¬ (3 * n ≤ i ∧ i < 3 * (n + V.rows)) := by omega
  rw [if_neg h1, if_neg h2, getElem?_resize_points c _ i (by omega) (by omega)]

/-- The record of relaxation calls after both phases. -/
theorem phases_calls (svc : RelaxationService) (kL kN : Int)
    (c0 : GEO.CentroidalVoronoiTesselation) :
    (newton_phase svc kN (lloyd_phase svc kL ⟨c0, []⟩)).calls =
      (if kL > 0 then [RelaxCall.Lloyd kL.toNat (svc.Lloyd_iterations c0 kL.toNat).1] else []) ++
      (if kN > 0 then
        [RelaxCall.Newton kN.toNat
          (svc.Newton_iterations (lloyd_phase svc kL ⟨c0, []⟩).CVT kN.toNat).1]
       else []) := by
  unfold newton_phase
  by_cases h2 : kN > 0
  · rw [if_pos h2, if_pos h2]
    unfold lloyd_phase
    by_cases h1 : kL > 0
    · simp only [if_pos h1, List.nil_append]
    · simp only [if_neg h1]
  · rw [if_neg h2, if_neg h2]
    unfold lloyd_phase
    by_cases h1 : kL > 0
    · simp only [if_pos h1, List.append_nil, List.nil_append]
    · simp only [if_neg h1, List.append_nil]

/-- C8. Zero-round no-op and phase gating: on a non-empty `V` of shape N x 3
with `n > 3`, the relaxation calls made by `sample_bbox` are the Lloyd call
exactly when `num_lloyd > 0` followed by the Newton call exactly when
`num_newton > 0` (the Newton call acting on the sample set left by the Lloyd
phase); and when `num_lloyd <= 0` and `num_newton <= 0` no relaxation call is
made, the sample set is the one set up, and, the initial sampling yielding `n`
points, the first `n` rows of the output `P` are exactly these `n` points in
the same order. -/
theorem sample_bbox_phase_gating (svc : RelaxationService) (V : Mat ℚ) (n : Int) (padding : ℚ)
    (kL kN : Int) (hc : V.cols = 3) (hne : 0 < V.rows) (hn : 3 < n) :
    ∃ c0 st P, sample_bbox_setup svc V n padding = Except.ok c0 ∧
      sample_bbox_state svc V n padding kL kN = Except.ok st ∧
      sample_bbox svc V n padding kL kN = Except.ok P ∧
      st.calls =
        (if kL > 0 then [RelaxCall.Lloyd kL.toNat (svc.Lloyd_iterations c0 kL.toNat).1]
          else []) ++
        (if kN > 0 then
          [RelaxCall.Newton kN.toNat
            (svc.Newton_iterations (lloyd_phase svc kL ⟨c0, []⟩).CVT kN.toNat).1]
         else []) ∧
      (kL ≤ 0 → kN ≤ 0 →
        st.calls = [] ∧ st.CVT = c0 ∧
        (svc.SamplingYields →
          P.data.take n.toNat =
            (embedding_to_matrix (sample_bbox_initial svc V n padding).points n.toNat).data)) := by
  have hsetup := sample_bbox_setup_eq svc V n padding hc hne hn
  refine ⟨_, _, _, hsetup, ?_, sample_bbox_eq svc V n padding kL kN _ hsetup,
    phases_calls svc kL kN _, ?_⟩
  · simp only [sample_bbox_state, hsetup]
  · intro h1 h2
    have e1 : ¬ kL > 0 := by omega
    have e2 : ¬ kN > 0 := by omega
    have hst : newton_phase svc kN (lloyd_phase svc kL
        ⟨lock_bbox_corners (bbox_corners V.minCorner V.maxCorner padding) (n.toNat + V.rows)
          (lock_input_points V n.toNat ((sample_bbox_initial svc V n padding).resize_points
            (n.toNat + V.rows + 8))), []⟩) =
        ⟨lock_bbox_corners (bbox_corners V.minCorner V.maxCorner padding) (n.toNat + V.rows)
          (lock_input_points V n.toNat ((sample_bbox_initial svc V n padding).resize_points
            (n.toNat + V.rows + 8))), []⟩ := by
      simp only [newton_phase, lloyd_phase, if_neg e1, if_neg e2]
    rw [hst]
    refine ⟨rfl, rfl, ?_⟩
    intro hS
    have hinit : (sample_bbox_initial svc V n padding).points.length = 3 * n.toNat := hS _ _
    have hlen : (lock_bbox_corners (bbox_corners V.minCorner V.maxCorner padding)
        (n.toNat + V.rows) (lock_input_points V n.toNat
          ((sample_bbox_initial svc V n padding).resize_points
            (n.toNat + V.rows + 8)))).points.length = 3 * (n.toNat + V.rows + 8) := by
      rw [length_setup_points, length_resize_points]
    apply List.ext_getElem?
    intro j
    rw [List.getElem?_take]
    by_cases hj : j < n.toNat
    · rw [if_pos hj, getElem?_embedding_to_matrix _ _ j (by rw [hlen]; omega),
        getElem?_embedding_to_matrix _ _ j hj]
      have hfree := fun i hi => setup_points_free
        (bbox_corners V.minCorner V.maxCorner padding) V n.toNat
        (sample_bbox_initial svc V n padding) hinit i hi
      simp only [List.getD_eq_getElem?_getD, hfree (3 * j) (by omega),
        hfree (3 * j + 1) (by omega), hfree (3 * j + 2) (by omega)]
    · rw [if_neg hj, embedding_to_matrix_eq]
      simp only [List.getElem?_map]
      rw [List.getElem?_eq_none (by simpa using (by omega : n.toNat ≤ j))]
      rfl

/-- Witness of C8: two input points, 4 samples, no Lloyd round and a negative
number of Newton rounds. -/
theorem sample_bbox_phase_gating_zero_rounds :
    ∃ c0 st P, sample_bbox_setup (halving_service none none) two_points_V 4 (1 / 2) =
        Except.ok c0 ∧
      sample_bbox_state (halving_service none none) two_points_V 4 (1 / 2) 0 (-2) =
        Except.ok st ∧
      sample_bbox (halving_service none none) two_points_V 4 (1 / 2) 0 (-2) = Except.ok P ∧
      st.calls = [] ∧ st.CVT = c0 ∧
      P.data.take (4 : Int).toNat =
        (embedding_to_matrix
          (sample_bbox_initial (halving_service none none) two_points_V 4 (1 / 2)).points
          (4 : Int).toNat).data :=
  match sample_bbox_phase_gating (halving_service none none) two_points_V 4 (1 / 2) 0 (-2) rfl
    (by decide) (by decide) with
  | ⟨c0, st, P, h1, h2, h3, _, h5⟩ =>
    ⟨c0, st, P, h1, h2, h3, (h5 (by decide) (by decide)).1, (h5 (by decide) (by decide)).2.1,
      (h5 (by decide) (by decide)).2.2 (halving_service_samplingYields _ _)⟩

/-- Closed form of lines 258-266 of `resample_surface` on an accepted mesh
with `num_samples > 3`: the setup succeeds. -/
theorem resample_surface_setup_eq (svc : RelaxationService) (V : Mat ℚ) (F : Mat Int) (n : Int)
    (hV : V.WF) (hc : 2 ≤ V.cols) (hF : F.WF) (hFc : F.cols = 3 ∨ F.cols = 4) (hn : 3 < n) :
    resample_surface_setup svc V F n =
      Except.ok (svc.compute_initial_sampling
        (GEO.CentroidalVoronoiTesselation.create
          ⟨V.data.map (pointOfRow V.cols), F.data.map (List.map GEO.index_of_int), []⟩)
        n.toNat) := by
  unfold resample_surface_setup
  rw [if_pos hn, to_geogram_mesh_eq V F _ hV hc hF, if_pos hFc]

/-- The sample set after both phases, by which phases ran. -/
theorem phases_CVT (svc : RelaxationService) (kL kN : Int)
    (c0 : GEO.CentroidalVoronoiTesselation) :
    (0 < kL → 0 < kN → (newton_phase svc kN (lloyd_phase svc kL ⟨c0, []⟩)).CVT =
        (svc.Newton_iterations (svc.Lloyd_iterations c0 kL.toNat).2 kN.toNat).2) ∧
      (0 < kL → kN ≤ 0 → (newton_phase svc kN (lloyd_phase svc kL ⟨c0, []⟩)).CVT =
        (svc.Lloyd_iterations c0 kL.toNat).2) ∧
      (kL ≤ 0 → 0 < kN → (newton_phase svc kN (lloyd_phase svc kL ⟨c0, []⟩)).CVT =
        (svc.Newton_iterations c0 kN.toNat).2) ∧
      (kL ≤ 0 → kN ≤ 0 → (newton_phase svc kN (lloyd_phase svc kL ⟨c0, []⟩)).CVT = c0) := by
  refine ⟨?_, ?_, ?_, ?_⟩
  · intro h1 h2
    simp only [newton_phase, lloyd_phase, if_pos (show kL > 0 from h1),
      if_pos (show kN > 0 from h2)]
  · intro h1 h2
    simp only [newton_phase, lloyd_phase, if_pos (show kL > 0 from h1),
      if_neg (show ¬ kN > 0 by omega)]
  · intro h1 h2
    simp only [newton_phase, lloyd_phase, if_neg (show ¬ kL > 0 by omega),
      if_pos (show kN > 0 from h2)]
  · intro h1 h2
    simp only [newton_phase, lloyd_phase, if_neg (show ¬ kL > 0 by omega),
      if_neg (show ¬ kN > 0 by omega)]

/-- C9. Cancellation is per phase and never an error: whatever the Lloyd and
the Newton calls report (ended normally or by `TaskCanceled`), `sample_bbox`
and `resample_surface` return normally; when `num_lloyd > 0` and
`num_newton > 0` the Newton call is made on the sample set exactly as the
Lloyd call left it, and the output holds the sample set exactly as the last
call made left it; the output is the full point set, `n + N + 8` rows for
`sample_bbox` and `n` rows for `resample_surface`, row `j` holding the three
coordinates of point `j` (relaxation not changing the point count, the
initial sampling yielding `n` points). -/
theorem sampling_survives_cancellation (svc : RelaxationService) (V : Mat ℚ) (F : Mat Int)
    (n : Int) (padding : ℚ) (kL kN : Int)
    (hV : V.WF) (hc : V.cols = 3) (hne : 0 < V.rows) (hF : F.WF)
    (hFc : F.cols = 3 ∨ F.cols = 4) (hn : 3 < n) (hS : svc.SamplingYields)
    (hL : PreservesCount svc.Lloyd_iterations) (hN : PreservesCount svc.Newton_iterations) :
    (∃ c0 st P, sample_bbox_setup svc V n padding = Except.ok c0 ∧
        sample_bbox_state svc V n padding kL kN = Except.ok st ∧
        sample_bbox svc V n padding kL kN = Except.ok P ∧
        (0 < kL → 0 < kN →
          st.CVT = (svc.Newton_iterations (svc.Lloyd_iterations c0 kL.toNat).2 kN.toNat).2 ∧
          st.calls = [RelaxCall.Lloyd kL.toNat (svc.Lloyd_iterations c0 kL.toNat).1,
            RelaxCall.Newton kN.toNat
              (svc.Newton_iterations (svc.Lloyd_iterations c0 kL.toNat).2 kN.toNat).1]) ∧
        (0 < kL → kN ≤ 0 → st.CVT = (svc.Lloyd_iterations c0 kL.toNat).2) ∧
        (kL ≤ 0 → 0 < kN → st.CVT = (svc.Newton_iterations c0 kN.toNat).2) ∧
        P.rows = n.toNat + V.rows + 8 ∧
        (∀ j, j < n.toNat + V.rows + 8 → P.data[j]? = some
          [st.CVT.points.getD (3 * j) 0, st.CVT.points.getD (3 * j + 1) 0,
            st.CVT.points.getD (3 * j + 2) 0])) ∧
      (∃ c0 st P, resample_surface_setup svc V F n = Except.ok c0 ∧
        resample_surface_state svc V F n kL kN = Except.ok st ∧
        resample_surface svc V F n kL kN = Except.ok P ∧
        (0 < kL → 0 < kN →
          st.CVT = (svc.Newton_iterations (svc.Lloyd_iterations c0 kL.toNat).2 kN.toNat).2 ∧
          st.calls = [RelaxCall.Lloyd kL.toNat (svc.Lloyd_iterations c0 kL.toNat).1,
            RelaxCall.Newton kN.toNat
              (svc.Newton_iterations (svc.Lloyd_iterations c0 kL.toNat).2 kN.toNat).1]) ∧
        (0 < kL → kN ≤ 0 → st.CVT = (svc.Lloyd_iterations c0 kL.toNat).2) ∧
        (kL ≤ 0 → 0 < kN → st.CVT = (svc.Newton_iterations c0 kN.toNat).2) ∧
        P.rows = n.toNat ∧ st.CVT.points.length = 3 * n.toNat ∧
        (∀ j, j < n.toNat → P.data[j]? = some
          [st.CVT.points.getD (3 * j) 0, st.CVT.points.getD (3 * j + 1) 0,
            st.CVT.points.getD (3 * j + 2) 0])) := by
  have hsetup := sample_bbox_setup_eq svc V n padding hc hne hn
  have hsetup2 := resample_surface_setup_eq svc V F n hV (by omega) hF hFc hn
  have hst1 : sample_bbox_state svc V n padding kL kN = Except.ok
      (newton_phase svc kN (lloyd_phase svc kL
        ⟨lock_bbox_corners (bbox_corners V.minCorner V.maxCorner padding) (n.toNat + V.rows)
          (lock_input_points V n.toNat ((sample_bbox_initial svc V n padding).resize_points
            (n.toNat + V.rows + 8))), []⟩)) := by
    simp only [sample_bbox_state, hsetup]
  have hst2 : resample_surface_state svc V F n kL kN = Except.ok
      (newton_phase svc kN (lloyd_phase svc kL
        ⟨svc.compute_initial_sampling (GEO.CentroidalVoronoiTesselation.create
          ⟨V.data.map (pointOfRow V.cols), F.data.map (List.map GEO.index_of_int), []⟩)
          n.toNat, []⟩)) := by
    simp only [resample_surface_state, hsetup2]
  have hP2 : resample_surface svc V F n kL kN = Except.ok
      (embedding_to_matrix (newton_phase svc kN (lloyd_phase svc kL
        ⟨svc.compute_initial_sampling (GEO.CentroidalVoronoiTesselation.create
          ⟨V.data.map (pointOfRow V.cols), F.data.map (List.map GEO.index_of_int), []⟩)
          n.toNat, []⟩)).CVT.points n.toNat) := by
    simp only [resample_surface, hst2]
  refine ⟨⟨_, _, _, hsetup, hst1, sample_bbox_eq svc V n padding kL kN _ hsetup, ?_, ?_, ?_, ?_,
    ?_⟩, ⟨_, _, _, hsetup2, hst2, hP2, ?_, ?_, ?_, ?_, ?_, ?_⟩⟩
  · intro h1 h2
    refine ⟨(phases_CVT svc kL kN _).1 h1 h2, ?_⟩
    rw [phases_calls, if_pos (show kL > 0 from h1), if_pos (show kN > 0 from h2)]
    simp only [lloyd_phase, if_pos (show kL > 0 from h1), List.singleton_append]
  · exact (phases_CVT svc kL kN _).2.1
  · exact (phases_CVT svc kL kN _).2.2.1
  · rw [newton_phase_length _ _ _ hN, lloyd_phase_length _ _ _ hL, length_setup_points,
      length_resize_points, embedding_to_matrix_eq]
    simp only [Mat.rows, List.length_map, List.length_range]
    omega
  · intro j hj
    rw [getElem?_embedding_to_matrix _ _ j]
    rw [newton_phase_length _ _ _ hN, lloyd_phase_length _ _ _ hL, length_setup_points,
      length_resize_points]
    omega
  · intro h1 h2
    refine ⟨(phases_CVT svc kL kN _).1 h1 h2, ?_⟩
    rw [phases_calls, if_pos (show kL > 0 from h1), if_pos (show kN > 0 from h2)]
    simp only [lloyd_phase, if_pos (show kL > 0 from h1), List.singleton_append]
  · exact (phases_CVT svc kL kN _).2.1
  · exact (phases_CVT svc kL kN _).2.2.1
  · rw [embedding_to_matrix_eq]
    simp only [Mat.rows, List.length_map, List.length_range]
  · rw [newton_phase_length _ _ _ hN, lloyd_phase_length _ _ _ hL]
    exact hS _ _
  · intro j hj
    exact getElem?_embedding_to_matrix _ _ j hj

/-- Witness of C9: the unit square with 4 samples, 3 Lloyd rounds cancelled
before the second one and 2 Newton rounds cancelled before the first one. -/
theorem sampling_survives_cancellation_square :
    (∃ P, sample_bbox (halving_service (some 1) (some 0)) unit_square_V 4 (1 / 2) 3 2 =
        Except.ok P ∧ P.rows = (4 : Int).toNat + unit_square_V.rows + 8) ∧
      (∃ P, resample_surface (halving_service (some 1) (some 0)) unit_square_V
        unit_square_triangles 4 3 2 = Except.ok P ∧ P.rows = (4 : Int).toNat) :=
  match sampling_survives_cancellation (halving_service (some 1) (some 0)) unit_square_V
    unit_square_triangles 4 (1 / 2) 3 2 (by decide) rfl (by decide) (by decide) (Or.inl rfl)
    (by decide) (halving_service_samplingYields _ _) (relax_rounds_halve_preservesCount _)
    (relax_rounds_halve_preservesCount _) with
  | ⟨⟨_, _, P, _, _, h3, _, _, _, h7, _⟩, ⟨_, _, Q, _, _, g3, _, _, _, g7, _⟩⟩ =>
    ⟨⟨P, h3, h7⟩, ⟨Q, g3, g7⟩⟩

end tetwild
